import Mathlib

/-!
Shallow embedding of the inventory-ledger and sale-transaction core of the
store backend (modules/inventory/controller/inventory.controller and
modules/sale/controller/sale.controller, compiled JavaScript plus the
TypeScript siblings, together with the SQL migration describing the tables).

Modelling conventions:
 - Database rows are records; the three mutable tables (products, sales,
   inventory_logs) form a `State`.  Primary keys are natural numbers; the
   association lists `State.products` and `State.sales` map a key to a row,
   mirroring Prisma `findUnique`/`update` on the primary key.
 - `DECIMAL(65,30)` money columns are exact decimals; they are embedded as
   rationals (`Rat`), which is faithful for the additions, subtractions and
   multiplications the code performs.  `INTEGER` columns are `Int`.
 - Each Prisma `$transaction` callback is one atomic step: it reads and
   writes the same `State` with no interleaving.  A callback that throws
   leaves the state unchanged (full rollback of that transaction).
 - `createSaleInventoryLog` is invoked by `createSale` and
   `updateSaleStatus` from inside their own open transaction but through the
   global Prisma client, so it commits in a transaction of its own.  The
   composite operations therefore return the resulting state even on
   failure: the outer rollback removes only the outer transaction's writes
   (the sale row / the status update), never the ledger writes already
   committed by the nested calls.
 - Fields never read by the modelled code paths (names, SKUs, free-text
   reasons, timestamps, the acting principal) are omitted from the rows.
-/

/-- Row of the `products` table: the fields the core mutation paths read or
write (`quantity`, `price`, `costPrice`, `isActive`). -/
structure Product where
  quantity : Int
  price : Rat
  costPrice : Rat
  isActive : Bool
deriving DecidableEq, Repr

/-- The `InventoryLogType` enum of the schema. -/
inductive LogType where
  | STOCK_IN
  | STOCK_OUT
  | SALE
  | RETURN
  | DAMAGE
  | ADJUSTMENT
deriving DecidableEq, Repr

/-- Row of the `inventory_logs` table (free-text reason, timestamp and
acting principal omitted). -/
structure InventoryLog where
  type : LogType
  quantity : Int
  previousStock : Int
  newStock : Int
  productId : Nat
  saleId : Option Nat
deriving DecidableEq, Repr

/-- The `SaleStatus` enum of the schema. -/
inductive SaleStatus where
  | PENDING
  | COMPLETED
  | CANCELLED
  | REFUNDED
deriving DecidableEq, Repr

/-- The `PaymentMethod` enum of the schema. -/
inductive PaymentMethod where
  | CASH
  | CARD
  | DIGITAL_WALLET
  | BANK_TRANSFER
deriving DecidableEq, Repr

/-- Row of the `sale_items` table. -/
structure SaleItem where
  productId : Nat
  quantity : Int
  unitPrice : Rat
  totalPrice : Rat
deriving DecidableEq, Repr

/-- Row of the `sales` table, holding its line items (the `items` relation). -/
structure Sale where
  saleNumber : Nat
  totalAmount : Rat
  taxAmount : Rat
  discount : Rat
  finalAmount : Rat
  paymentMethod : PaymentMethod
  status : SaleStatus
  staffId : Nat
  customerId : Option Nat
  items : List SaleItem
deriving DecidableEq, Repr

/-- The mutable store: products and sales keyed by primary key, the
append-only inventory log, and the set of existing customer ids. -/
structure State where
  products : List (Nat × Product)
  sales : List (Nat × Sale)
  logs : List InventoryLog
  customers : List Nat
deriving DecidableEq, Repr

/-- Lookup by primary key (Prisma `findUnique` on `id`). -/
def findByKey (l : List (Nat × α)) (k : Nat) : Option α :=
  match l with
  | [] => none
  | kv :: rest => if kv.1 = k then some kv.2 else findByKey rest k

/-- Update the row with the given primary key (Prisma `update` on `id`). -/
def setByKey (l : List (Nat × α)) (k : Nat) (f : α → α) : List (Nat × α) :=
  l.map (fun kv => if kv.1 = k then (kv.1, f kv.2) else kv)

/-- Lookup restricted to active products
(Prisma `findUnique` with `where: id, isActive: true`). -/
def lookupActive (s : State) (productId : Nat) : Option Product :=
  match findByKey s.products productId with
  | some p => if p.isActive then some p else none
  | none => none

/-- Error outcomes of the core operations, as distinguished by the
controllers' response paths. -/
inductive OpError where
  | invalidArgument
  | notFound (productId : Nat)
  | insufficientStock (productId : Nat)
  | customerNotFound
  | saleNotFound
  | invalidTransition (a b : SaleStatus)
  | conflict
deriving DecidableEq, Repr

/-- Cost-price update of `stockIn`: the override is applied only when it is
truthy in JavaScript (`if (costPrice)`), so a zero or absent override keeps
the old cost price. -/
def applyCost (costPrice : Option Rat) (old : Rat) : Rat :=
  match costPrice with
  | some c => if c = 0 then old else c
  | none => old

/-- `InventoryController.stockIn` (compiled JavaScript variant): validates
the quantity, reads the product outside the transaction, computes
`previousStock`/`newStock` from that read, then inside the transaction
re-reads the product, updates its quantity (optionally the cost price, when
the given override is truthy) and appends the `STOCK_IN` log entry.  The
whole call is one atomic step, so both reads see the same state. -/
def stockIn (s : State) (productId : Nat) (quantity : Int)
    (costPrice : Option Rat) : Except OpError (State × InventoryLog) :=
  if quantity ≤ 0 then .error .invalidArgument
  else
    match lookupActive s productId with
    | none => .error (.notFound productId)
    | some product =>
      let previousStock := product.quantity
      let newStock := previousStock + quantity
      match lookupActive s productId with
      | none => .error (.notFound productId)
      | some _ =>
        let f : Product → Product := fun p =>
          { p with
            quantity := newStock
            costPrice := applyCost costPrice p.costPrice }
        let log : InventoryLog :=
          { type := .STOCK_IN, quantity := quantity,
            previousStock := previousStock, newStock := newStock,
            productId := productId, saleId := none }
        .ok ({ s with
                products := setByKey s.products productId f
                logs := s.logs ++ [log] }, log)

/-- `InventoryController.stockOut` (compiled JavaScript variant): validates
the quantity, reads the product outside the transaction, rejects when
`previousStock < quantity`, computes `newStock` from the outside read, then
inside the transaction re-reads the product, re-checks sufficiency on the
fresh read, updates the quantity and appends the `STOCK_OUT` entry. -/
def stockOut (s : State) (productId : Nat) (quantity : Int) :
    Except OpError (State × InventoryLog) :=
  if quantity ≤ 0 then .error .invalidArgument
  else
    match lookupActive s productId with
    | none => .error (.notFound productId)
    | some product =>
      let previousStock := product.quantity
      if previousStock < quantity then .error (.insufficientStock productId)
      else
        let newStock := previousStock - quantity
        match lookupActive s productId with
        | none => .error (.notFound productId)
        | some locked =>
          if locked.quantity < quantity then .error (.insufficientStock productId)
          else
            let log : InventoryLog :=
              { type := .STOCK_OUT, quantity := quantity,
                previousStock := previousStock, newStock := newStock,
                productId := productId, saleId := none }
            .ok ({ s with
                    products := setByKey s.products productId
                      (fun p => { p with quantity := newStock })
                    logs := s.logs ++ [log] }, log)

/-- `InventoryController.adjustStock` (compiled JavaScript variant): the
request's `quantity` is the target stock level; negative targets are
rejected.  The delta magnitude is `|target − current|`, the log type is
`STOCK_IN` when the target exceeds the current stock and `STOCK_OUT`
otherwise, and a log entry is written unconditionally, even when the target
equals the current stock. -/
def adjustStock (s : State) (productId : Nat) (target : Int) :
    Except OpError (State × InventoryLog) :=
  if target < 0 then .error .invalidArgument
  else
    match lookupActive s productId with
    | none => .error (.notFound productId)
    | some product =>
      let previousStock := product.quantity
      let newStock := target
      let adjustmentQuantity := |newStock - previousStock|
      let logType : LogType :=
        if newStock > previousStock then .STOCK_IN else .STOCK_OUT
      match lookupActive s productId with
      | none => .error (.notFound productId)
      | some _ =>
        let log : InventoryLog :=
          { type := logType, quantity := adjustmentQuantity,
            previousStock := previousStock, newStock := newStock,
            productId := productId, saleId := none }
        .ok ({ s with
                products := setByKey s.products productId
                  (fun p => { p with quantity := newStock })
                logs := s.logs ++ [log] }, log)

/-- Direction of a sale-driven stock movement; the TypeScript signature of
`createSaleInventoryLog` restricts its `type` argument to
`"SALE" | "RETURN"`. -/
inductive SaleDirection where
  | SALE
  | RETURN
deriving DecidableEq, Repr

/-- The `InventoryLogType` value recorded for a direction. -/
def SaleDirection.toLogType : SaleDirection → LogType
  | .SALE => .SALE
  | .RETURN => .RETURN

/-- `InventoryController.createSaleInventoryLog` (compiled JavaScript
variant): reads the product through the global client (no `isActive`
filter), for `SALE` rejects on insufficient stock and decrements, for
`RETURN` increments; then in its own transaction re-reads the product,
re-checks sufficiency for `SALE`, writes the new quantity and appends the
log entry stamped with the sale id.  This transaction belongs to the global
client, so its writes commit independently of any caller transaction. -/
def createSaleInventoryLog (s : State) (productId : Nat) (quantity : Int)
    (saleId : Nat) (dir : SaleDirection) :
    Except OpError (State × InventoryLog) :=
  match findByKey s.products productId with
  | none => .error (.notFound productId)
  | some product =>
    let previousStock := product.quantity
    if dir = .SALE ∧ previousStock < quantity then
      .error (.insufficientStock productId)
    else
      let newStock :=
        match dir with
        | .SALE => previousStock - quantity
        | .RETURN => previousStock + quantity
      match findByKey s.products productId with
      | none => .error (.notFound productId)
      | some locked =>
        if dir = .SALE ∧ locked.quantity < quantity then
          .error (.insufficientStock productId)
        else
          let log : InventoryLog :=
            { type := dir.toLogType, quantity := quantity,
              previousStock := previousStock, newStock := newStock,
              productId := productId, saleId := some saleId }
          .ok ({ s with
                  products := setByKey s.products productId
                    (fun p => { p with quantity := newStock })
                  logs := s.logs ++ [log] }, log)

/-- Line item of a `createSale` request: product, quantity and the optional
per-item unit-price override. -/
structure SaleItemInput where
  productId : Nat
  quantity : Int
  unitPrice : Option Rat
deriving DecidableEq, Repr

/-- Unit-price snapshot of `createSale`: the per-item override is used only
when it is truthy in JavaScript (`item.unitPrice ? ... : product.price`),
so a zero override falls back to the product's current price. -/
def priceOf (override : Option Rat) (price : Rat) : Rat :=
  match override with
  | some v => if v = 0 then price else v
  | none => price

/-- Validation and pricing loop of `SaleController.createSale`: for each
item in order, read the product (active only), reject if missing or if
stock is insufficient, snapshot the unit price via `priceOf`, and
accumulate the line totals.  No writes happen in this phase. -/
def priceItems (s : State) (items : List SaleItemInput) :
    Except OpError (List SaleItem × Rat) :=
  match items with
  | [] => .ok ([], 0)
  | item :: rest =>
    match lookupActive s item.productId with
    | none => .error (.notFound item.productId)
    | some product =>
      if product.quantity < item.quantity then
        .error (.insufficientStock item.productId)
      else
        let unitPrice := priceOf item.unitPrice product.price
        let totalPrice := unitPrice * (item.quantity : Rat)
        match priceItems s rest with
        | .error e => .error e
        | .ok (restItems, restTotal) =>
          .ok ({ productId := item.productId, quantity := item.quantity,
                 unitPrice := unitPrice, totalPrice := totalPrice } :: restItems,
               totalPrice + restTotal)

/-- Ledger phase of `createSale`: one `createSaleInventoryLog` call per line
item, in input order.  Each call commits in its own transaction, so when a
later call fails the effects of the earlier calls remain in the state. -/
def runLedger (s : State) (items : List SaleItemInput) (saleId : Nat) :
    State × Option OpError :=
  match items with
  | [] => (s, none)
  | item :: rest =>
    match createSaleInventoryLog s item.productId item.quantity saleId .SALE with
    | .error e => (s, some e)
    | .ok (s1, _) => runLedger s1 rest saleId

/-- `SaleController.createSale`.  Input validation, customer check, then one
outer transaction: the pricing loop, the `sale.create` with nested line
items (which violates the `sale_items(saleId, productId)` unique index and
aborts the transaction when two items share a product), and the per-item
ledger calls.  The ledger calls run through the global client, so on a
ledger failure the outer rollback removes only the sale row and its items;
the ledger writes already committed stay.  The generated sale id and sale
number are passed in as arguments. -/
def createSale (s : State) (customerId : Option Nat)
    (items : List SaleItemInput) (paymentMethod : Option PaymentMethod)
    (taxAmount discount : Rat) (staffId : Nat) (saleId : Nat)
    (saleNumber : Nat) : State × Except OpError Sale :=
  if items.isEmpty then (s, .error .invalidArgument)
  else if items.any (fun it => it.quantity ≤ 0) then (s, .error .invalidArgument)
  else
    match paymentMethod with
    | none => (s, .error .invalidArgument)
    | some pm =>
      if customerId.all (fun c => s.customers.contains c) then
        match priceItems s items with
        | .error e => (s, .error e)
        | .ok (saleItems, totalAmount) =>
          let finalAmount := totalAmount + taxAmount - discount
          let sale : Sale :=
            { saleNumber := saleNumber, totalAmount := totalAmount,
              taxAmount := taxAmount, discount := discount,
              finalAmount := finalAmount, paymentMethod := pm,
              status := .COMPLETED, staffId := staffId,
              customerId := customerId, items := saleItems }
          if (items.map (fun it => it.productId)).Nodup then
            match runLedger s items saleId with
            | (s1, some e) => (s1, .error e)
            | (s1, none) =>
              ({ s1 with sales := s1.sales ++ [(saleId, sale)] }, .ok sale)
          else (s, .error .conflict)
      else (s, .error .customerNotFound)

/-- `SaleController.isValidStatusTransition`: the transition table. -/
def isValidStatusTransition (a b : SaleStatus) : Bool :=
  match a with
  | .PENDING => b = .COMPLETED ∨ b = .CANCELLED
  | .COMPLETED => b = .REFUNDED
  | .CANCELLED => false
  | .REFUNDED => false

/-- Restock phase of `updateSaleStatus`: one `createSaleInventoryLog` call
with direction `RETURN` per original line item, each committing in its own
transaction through the global client. -/
def runReturns (s : State) (items : List SaleItem) (saleId : Nat) :
    State × Option OpError :=
  match items with
  | [] => (s, none)
  | item :: rest =>
    match createSaleInventoryLog s item.productId item.quantity saleId .RETURN with
    | .error e => (s, some e)
    | .ok (s1, _) => runReturns s1 rest saleId

/-- `SaleController.updateSaleStatus`: loads the sale, validates the
transition against the table (rejecting before any write), then in one
transaction persists the new status and, for `REFUNDED` or `CANCELLED`,
restocks every original line item via `createSaleInventoryLog`.  The
restock calls commit independently, so a restock failure rolls back only
the status update. -/
def updateSaleStatus (s : State) (saleId : Nat) (newStatus : SaleStatus) :
    State × Except OpError Sale :=
  match findByKey s.sales saleId with
  | none => (s, .error .saleNotFound)
  | some sale =>
    if isValidStatusTransition sale.status newStatus then
      let sale1 := { sale with status := newStatus }
      let s1 := { s with sales := setByKey s.sales saleId (fun _ => sale1) }
      if newStatus = .REFUNDED ∨ newStatus = .CANCELLED then
        match runReturns s1 sale.items saleId with
        | (s2, some e) => ({ s2 with sales := s.sales }, .error e)
        | (s2, none) => (s2, .ok sale1)
      else (s1, .ok sale1)
    else (s, .error (.invalidTransition sale.status newStatus))

/-- `stockIn` as written in the TypeScript source: a single read inside the
transaction computes `previousStock`/`newStock`. -/
def stockInTS (s : State) (productId : Nat) (quantity : Int)
    (costPrice : Option Rat) : Except OpError (State × InventoryLog) :=
  if quantity ≤ 0 then .error .invalidArgument
  else
    match lookupActive s productId with
    | none => .error (.notFound productId)
    | some product =>
      let previousStock := product.quantity
      let newStock := previousStock + quantity
      let f : Product → Product := fun p =>
        { p with
          quantity := newStock
          costPrice := applyCost costPrice p.costPrice }
      let log : InventoryLog :=
        { type := .STOCK_IN, quantity := quantity,
          previousStock := previousStock, newStock := newStock,
          productId := productId, saleId := none }
      .ok ({ s with
              products := setByKey s.products productId f
              logs := s.logs ++ [log] }, log)

/-- `stockOut` as written in the TypeScript source: one read and one
sufficiency check, both inside the transaction. -/
def stockOutTS (s : State) (productId : Nat) (quantity : Int) :
    Except OpError (State × InventoryLog) :=
  if quantity ≤ 0 then .error .invalidArgument
  else
    match lookupActive s productId with
    | none => .error (.notFound productId)
    | some product =>
      let previousStock := product.quantity
      if previousStock < quantity then .error (.insufficientStock productId)
      else
        let newStock := previousStock - quantity
        let log : InventoryLog :=
          { type := .STOCK_OUT, quantity := quantity,
            previousStock := previousStock, newStock := newStock,
            productId := productId, saleId := none }
        .ok ({ s with
                products := setByKey s.products productId
                  (fun p => { p with quantity := newStock })
                logs := s.logs ++ [log] }, log)

/-- `createSaleInventoryLog` as written in the TypeScript source: the read,
the sufficiency check and the writes all live inside the one transaction. -/
def createSaleInventoryLogTS (s : State) (productId : Nat) (quantity : Int)
    (saleId : Nat) (dir : SaleDirection) :
    Except OpError (State × InventoryLog) :=
  match findByKey s.products productId with
  | none => .error (.notFound productId)
  | some product =>
    let previousStock := product.quantity
    if dir = .SALE ∧ previousStock < quantity then
      .error (.insufficientStock productId)
    else
      let newStock :=
        match dir with
        | .SALE => previousStock - quantity
        | .RETURN => previousStock + quantity
      let log : InventoryLog :=
        { type := dir.toLogType, quantity := quantity,
          previousStock := previousStock, newStock := newStock,
          productId := productId, saleId := some saleId }
      .ok ({ s with
              products := setByKey s.products productId
                (fun p => { p with quantity := newStock })
              logs := s.logs ++ [log] }, log)

/-- Invocation of one core operation, with all request data and the
generated identifiers as payload. -/
inductive Op where
  | opStockIn (productId : Nat) (quantity : Int) (costPrice : Option Rat)
  | opStockOut (productId : Nat) (quantity : Int)
  | opAdjustStock (productId : Nat) (target : Int)
  | opCreateSale (customerId : Option Nat) (items : List SaleItemInput)
      (paymentMethod : Option PaymentMethod) (taxAmount discount : Rat)
      (staffId saleId saleNumber : Nat)
  | opUpdateSaleStatus (saleId : Nat) (newStatus : SaleStatus)
deriving DecidableEq, Repr

/-- State reached after one operation: a failed single-transaction operation
leaves the state unchanged, while the composite operations return whatever
their committed nested transactions produced. -/
def applyOp (s : State) (op : Op) : State :=
  match op with
  | .opStockIn pid q cp =>
    match stockIn s pid q cp with
    | .ok (s1, _) => s1
    | .error _ => s
  | .opStockOut pid q =>
    match stockOut s pid q with
    | .ok (s1, _) => s1
    | .error _ => s
  | .opAdjustStock pid t =>
    match adjustStock s pid t with
    | .ok (s1, _) => s1
    | .error _ => s
  | .opCreateSale cust items pm tax disc staff sid snum =>
    (createSale s cust items pm tax disc staff sid snum).1
  | .opUpdateSaleStatus sid ns => (updateSaleStatus s sid ns).1

/-- Every state visited by a sequence of operations, the initial and final
states included. -/
def traceStates (s : State) : List Op → List State
  | [] => [s]
  | op :: ops => s :: traceStates (applyOp s op) ops

/-- Quantity of the product with the given id, when it exists. -/
def productQty (s : State) (productId : Nat) : Option Int :=
  (findByKey s.products productId).map (fun p => p.quantity)

/-- Sum of all product quantities. -/
def totalQty (s : State) : Int :=
  (s.products.map (fun kv => kv.2.quantity)).sum

/-- Every product quantity is nonnegative. -/
def nonneg (s : State) : Prop :=
  ∀ kv ∈ s.products, 0 ≤ kv.2.quantity

/-- Every stored sale line item has a nonnegative quantity (the data model
declares line-item quantities positive; the ledger only needs them
nonnegative to keep stock nonnegative). -/
def itemsNonneg (s : State) : Prop :=
  ∀ kv ∈ s.sales, ∀ it ∈ kv.2.items, 0 ≤ it.quantity

/-- Progress of one `stockOut` request in the interleaving model: the
request has not yet read, or has passed the pre-transaction read and
sufficiency check (remembering the `previousStock` it saw), or is finished
with one of the controller's outcomes. -/
inductive CallState where
  | ready
  | checked (previousStock : Int)
  | succeeded
  | failedInvalid
  | failedNotFound
  | failedInsufficient
deriving DecidableEq, Repr

/-- First half of `stockOut`: input validation, the read through the global
client, and the pre-transaction sufficiency check. -/
def stockOutPhase1 (s : State) (productId : Nat) (quantity : Int) : CallState :=
  if quantity ≤ 0 then .failedInvalid
  else
    match lookupActive s productId with
    | none => .failedNotFound
    | some product =>
      if product.quantity < quantity then .failedInsufficient
      else .checked product.quantity

/-- Second half of `stockOut`: the transaction, taken as one atomic step.
It re-reads the product, re-checks sufficiency on the fresh read, and
writes `previousStock − quantity` where `previousStock` is the value read
in the first phase. -/
def stockOutPhase2 (s : State) (productId : Nat) (quantity : Int)
    (previousStock : Int) : State × CallState :=
  match lookupActive s productId with
  | none => (s, .failedNotFound)
  | some locked =>
    if locked.quantity < quantity then (s, .failedInsufficient)
    else
      let newStock := previousStock - quantity
      let log : InventoryLog :=
        { type := .STOCK_OUT, quantity := quantity,
          previousStock := previousStock, newStock := newStock,
          productId := productId, saleId := none }
      ({ s with
          products := setByKey s.products productId
            (fun p => { p with quantity := newStock })
          logs := s.logs ++ [log] }, .succeeded)

/-- Advance one `stockOut` request by one step; finished requests absorb. -/
def stepCall (s : State) (c : CallState) (productId : Nat) (quantity : Int) :
    State × CallState :=
  match c with
  | .ready => (s, stockOutPhase1 s productId quantity)
  | .checked prev => stockOutPhase2 s productId quantity prev
  | c => (s, c)

/-- Configuration of two in-flight `stockOut` requests over one store. -/
structure TwoCalls where
  st : State
  c1 : CallState
  c2 : CallState
deriving DecidableEq, Repr

/-- Scheduler step: advance the first call on `true`, the second on
`false`, both targeting the same product and quantity. -/
def step2 (productId : Nat) (quantity : Int) (cfg : TwoCalls) (i : Bool) :
    TwoCalls :=
  if i then
    let r := stepCall cfg.st cfg.c1 productId quantity
    { cfg with st := r.1, c1 := r.2 }
  else
    let r := stepCall cfg.st cfg.c2 productId quantity
    { cfg with st := r.1, c2 := r.2 }

/-- Run a schedule, an arbitrary interleaving of the two requests' steps. -/
def run2 (productId : Nat) (quantity : Int) (cfg : TwoCalls)
    (sched : List Bool) : TwoCalls :=
  sched.foldl (step2 productId quantity) cfg

/-- A request is finished. -/
def CallState.done : CallState → Bool
  | .ready => false
  | .checked _ => false
  | _ => true

/-- Log entry produced by a sale-driven stock movement from a given
previous stock level. -/
def saleLogEntry (pid : Nat) (q : Int) (sid : Nat) (dir : SaleDirection)
    (prev : Int) : InventoryLog :=
  { type := dir.toLogType, quantity := q, previousStock := prev,
    newStock := match dir with
                | .SALE => prev - q
                | .RETURN => prev + q,
    productId := pid, saleId := some sid }

/-- Log entry produced by a successful `stockIn`. -/
def stockInEntry (pid : Nat) (q prev : Int) : InventoryLog :=
  { type := .STOCK_IN, quantity := q, previousStock := prev,
    newStock := prev + q, productId := pid, saleId := none }

/-- Log entry produced by a successful `stockOut`. -/
def stockOutEntry (pid : Nat) (q prev : Int) : InventoryLog :=
  { type := .STOCK_OUT, quantity := q, previousStock := prev,
    newStock := prev - q, productId := pid, saleId := none }

/-- Log entry produced by a successful `adjustStock`. -/
def adjustEntry (pid : Nat) (target prev : Int) : InventoryLog :=
  { type := if target > prev then .STOCK_IN else .STOCK_OUT,
    quantity := |target - prev|, previousStock := prev, newStock := target,
    productId := pid, saleId := none }

/-- The product of the concurrency scenario: quantity 10, active. -/
def prodC8 : Product := { quantity := 10, price := 1, costPrice := 1, isActive := true }

/-- The same product after one successful `stockOut` of 7. -/
def prodC8b : Product := { prodC8 with quantity := 3 }

/-- Initial store of the concurrency scenario: one product with
quantity 10. -/
def initC8 : State :=
  { products := [(1, prodC8)], sales := [], logs := [], customers := [] }

/-- A pending call (not yet finished, pre-transaction read seen 10). -/
def preC (c : CallState) : Prop := c = .ready ∨ c = .checked 10

/-- A call that is pending or has already failed on insufficiency. -/
def postC (c : CallState) : Prop :=
  c = .ready ∨ c = .checked 10 ∨ c = .failedInsufficient

/-- Reachability invariant of two interleaved `stockOut(1, 7)` requests
against a stock of 10: either nothing has committed (quantity still 10 and
both calls pending), or exactly one call has succeeded (quantity 3) and
the other is pending or has failed with insufficient stock. -/
def invC8 (c : TwoCalls) : Prop :=
  (c.st.products = [(1, prodC8)] ∧ preC c.c1 ∧ preC c.c2) ∨
  (c.st.products = [(1, prodC8b)] ∧
    ((c.c1 = .succeeded ∧ postC c.c2) ∨ (postC c.c1 ∧ c.c2 = .succeeded)))

/-- Signed arithmetic of a single log entry: additive types add the
quantity, subtractive types subtract it. -/
def logArith (e : InventoryLog) : Prop :=
  ((e.type = .STOCK_IN ∨ e.type = .RETURN) →
    e.newStock = e.previousStock + e.quantity) ∧
  ((e.type = .STOCK_OUT ∨ e.type = .SALE) →
    e.newStock = e.previousStock - e.quantity)

/-- Demonstration product used by concrete scenarios. -/
def demoProduct : Product :=
  { quantity := 4, price := 2, costPrice := 1, isActive := true }

/-- Demonstration line item used by concrete scenarios. -/
def demoItem : SaleItem :=
  { productId := 1, quantity := 2, unitPrice := 2, totalPrice := 4 }

/-- Demonstration completed sale used by concrete scenarios. -/
def demoSale : Sale :=
  { saleNumber := 7, totalAmount := 4, taxAmount := 0, discount := 0,
    finalAmount := 4, paymentMethod := .CASH, status := .COMPLETED,
    staffId := 1, customerId := none, items := [demoItem] }

/-- Demonstration store: one product in stock, one completed sale. -/
def demoState : State :=
  { products := [(1, demoProduct)], sales := [(1, demoSale)],
    logs := [], customers := [] }

/-- Decidable equality for operation results. -/
instance {ε α : Type} [DecidableEq ε] [DecidableEq α] :
    DecidableEq (Except ε α) := fun a b =>
  match a, b with
  | .ok x, .ok y =>
    if h : x = y then .isTrue (by rw [h])
    else .isFalse (by intro hc; cases hc; exact h rfl)
  | .error x, .error y =>
    if h : x = y then .isTrue (by rw [h])
    else .isFalse (by intro hc; cases hc; exact h rfl)
  | .ok _, .error _ => .isFalse (by intro hc; cases hc)
  | .error _, .ok _ => .isFalse (by intro hc; cases hc)

/-- Deciding product nonnegativity on concrete stores. -/
instance (s : State) : Decidable (nonneg s) := by
  unfold nonneg
  infer_instance

/-- Deciding line-item nonnegativity on concrete stores. -/
instance (s : State) : Decidable (itemsNonneg s) := by
  unfold itemsNonneg
  infer_instance

/-- Sale with a negative line-item quantity for the C1 counterexample. -/
def saleC1 : Sale :=
  { saleNumber := 1, totalAmount := 5, taxAmount := 0, discount := 0,
    finalAmount := 5, paymentMethod := .CASH, status := .COMPLETED,
    staffId := 1, customerId := none,
    items := [{ productId := 1, quantity := -5, unitPrice := 1,
                totalPrice := -5 }] }

/-- Store for the C1 counterexample: quantities are all nonnegative, but a
stored sale carries a line item with negative quantity (the `INTEGER`
column admits it and the claim's hypothesis does not exclude it). -/
def stateC1 : State :=
  { products := [(1, { quantity := 0, price := 1, costPrice := 1, isActive := true })],
    sales := [(1, saleC1)], logs := [], customers := [] }

/-- Unit price of the first persisted line item of a `createSale` result,
when the call succeeded. -/
def firstUnitPrice (r : State × Except OpError Sale) : Option Rat :=
  match r.2 with
  | .ok sale => sale.items.head?.map (fun si => si.unitPrice)
  | .error _ => none

/-- Product for the C3 counterexample: price 7, five units in stock. -/
def prodC3 : Product :=
  { quantity := 5, price := 7, costPrice := 1, isActive := true }

/-- Store for the C3 counterexample: one product priced 7. -/
def stateC3 : State :=
  { products := [(1, prodC3)], sales := [], logs := [], customers := [] }

/-- Line items of the C3 witness sale: quantity 2 of product 1 at the
product's stored price 2, with the rational fields written exactly as
`createSale` computes them. -/
def saleC3w : Sale :=
  { saleNumber := 9,
    totalAmount := 2 * ((2 : Int) : Rat) + 0,
    taxAmount := 0, discount := 0,
    finalAmount := 2 * ((2 : Int) : Rat) + 0 + 0 - 0,
    paymentMethod := .CASH, status := .COMPLETED, staffId := 1,
    customerId := none,
    items := [{ productId := 1, quantity := 2, unitPrice := 2, totalPrice := 2 * ((2 : Int) : Rat) }] }

/-- Log entry written by the C5 witness call: stock-in of 5 units onto a
stock of 4. -/
def c5log : InventoryLog :=
  { type := .STOCK_IN, quantity := 5, previousStock := 4, newStock := 9,
    productId := 1, saleId := none }

/-- Post-state of the C5 witness call. -/
def c5s1 : State :=
  { products := [(1, { quantity := 9, price := 2, costPrice := 1, isActive := true })],
    sales := [(1, demoSale)], logs := [c5log], customers := [] }

/-- Quantity carried by the log entry of a successful single-entry
inventory operation. -/
def adjustLogQty (r : Except OpError (State × InventoryLog)) : Option Int :=
  match r with
  | .ok (_, log) => some log.quantity
  | .error _ => none

/-- Log entry written by the C7 witness call: stock-out of 3 units from a
stock of 4. -/
def c7log : InventoryLog :=
  { type := .STOCK_OUT, quantity := 3, previousStock := 4, newStock := 1,
    productId := 1, saleId := none }

/-- Post-state of the C7 witness call. -/
def c7s1 : State :=
  { products := [(1, { quantity := 1, price := 2, costPrice := 1, isActive := true })],
    sales := [(1, demoSale)], logs := [c7log], customers := [] }

/-- A successful lookup returns a member of the list. -/
theorem findByKey_mem {l : List (Nat × α)} {k : Nat} {v : α}
    (h : findByKey l k = some v) : (k, v) ∈ l := by
  induction l with
  | nil => simp [findByKey] at h
  | cons kv rest ih =>
    rw [findByKey] at h
    by_cases hk : kv.1 = k
    · simp only [hk, if_pos rfl] at h
      cases h
      have hkv : (k, kv.2) = kv := by rw [← hk]
      rw [hkv]
      exact List.mem_cons_self kv rest
    · simp only [if_neg hk] at h
      exact List.mem_cons_of_mem _ (ih h)

/-- Lookup after a keyed update. -/
theorem findByKey_setByKey (l : List (Nat × α)) (k q : Nat) (f : α → α) :
    findByKey (setByKey l k f) q =
      if q = k then (findByKey l q).map f else findByKey l q := by
  induction l with
  | nil =>
    show (none : Option α) = if q = k then Option.map f none else none
    by_cases hq : q = k <;> simp [hq]
  | cons kv rest ih =>
    show findByKey ((if kv.1 = k then (kv.1, f kv.2) else kv) :: setByKey rest k f) q = _
    by_cases hk : kv.1 = k
    · rw [if_pos hk]
      simp only [findByKey]
      by_cases h2 : kv.1 = q
      · have hq : q = k := h2.symm.trans hk
        rw [if_pos h2, if_pos hq, if_pos h2]
        rfl
      · rw [if_neg h2, ih]
        by_cases hq : q = k
        · rw [if_pos hq, if_pos hq, if_neg h2]
        · rw [if_neg hq, if_neg hq, if_neg h2]
    · rw [if_neg hk]
      simp only [findByKey]
      by_cases h2 : kv.1 = q
      · have hq : ¬ q = k := fun hc => hk (h2.trans hc)
        rw [if_pos h2, if_neg hq, if_pos h2]
      · rw [if_neg h2, ih]
        by_cases hq : q = k
        · rw [if_pos hq, if_pos hq, if_neg h2]
        · rw [if_neg hq, if_neg hq, if_neg h2]

/-- A keyed update does not change the keys. -/
theorem keys_setByKey (l : List (Nat × α)) (k : Nat) (f : α → α) :
    (setByKey l k f).map Prod.fst = l.map Prod.fst := by
  induction l with
  | nil => rfl
  | cons kv rest ih =>
    by_cases hk : kv.1 = k <;> simp [setByKey, hk] at ih ⊢ <;> exact ih

/-- A keyed update preserves key existence. -/
theorem isSome_findByKey_setByKey (l : List (Nat × α)) (k q : Nat) (f : α → α) :
    (findByKey (setByKey l k f) q).isSome = (findByKey l q).isSome := by
  rw [findByKey_setByKey]
  by_cases hq : q = k <;> simp [hq]

/-- Membership in a keyed update comes from membership in the original. -/
theorem mem_setByKey {l : List (Nat × α)} {k : Nat} {f : α → α} {kv : Nat × α}
    (h : kv ∈ setByKey l k f) :
    ∃ kv0 ∈ l, kv = if kv0.1 = k then (kv0.1, f kv0.2) else kv0 := by
  rcases List.mem_map.mp h with ⟨kv0, hkv0, heq⟩
  exact ⟨kv0, hkv0, heq.symm⟩

/-- A keyed update whose key appears in no entry is the identity. -/
theorem setByKey_eq_self {l : List (Nat × α)} {k : Nat} (f : α → α)
    (h : ∀ kv ∈ l, ¬ kv.1 = k) : setByKey l k f = l := by
  induction l with
  | nil => rfl
  | cons kv rest ih =>
    have h1 : ¬ kv.1 = k := h kv (List.mem_cons_self _ _)
    have h2 : ∀ kv' ∈ rest, ¬ kv'.1 = k :=
      fun kv' hm => h kv' (List.mem_cons_of_mem _ hm)
    show (if kv.1 = k then (kv.1, f kv.2) else kv) :: setByKey rest k f = kv :: rest
    rw [if_neg h1, ih h2]

/-- Sum of quantities after a keyed update, when keys are unique. -/
theorem sum_setByKey {l : List (Nat × Product)} {k : Nat} {v : Product}
    (f : Product → Product)
    (hnd : (l.map Prod.fst).Nodup) (h : findByKey l k = some v) :
    ((setByKey l k f).map (fun kv => kv.2.quantity)).sum =
      (l.map (fun kv => kv.2.quantity)).sum - v.quantity + (f v).quantity := by
  induction l with
  | nil => simp [findByKey] at h
  | cons kv rest ih =>
    rw [List.map_cons, List.nodup_cons] at hnd
    rw [findByKey] at h
    by_cases hk : kv.1 = k
    · rw [if_pos hk] at h
      cases h
      have h2 : ∀ kv' ∈ rest, ¬ kv'.1 = k := by
        intro kv' hm hc
        apply hnd.1
        have hkk : kv.1 = kv'.1 := hk.trans hc.symm
        rw [hkk]
        exact List.mem_map.mpr ⟨kv', hm, rfl⟩
      have hs : setByKey (kv :: rest) k f = (kv.1, f kv.2) :: rest := by
        show (if kv.1 = k then (kv.1, f kv.2) else kv) :: setByKey rest k f = _
        rw [if_pos hk, setByKey_eq_self f h2]
      rw [hs]
      simp only [List.map_cons, List.sum_cons]
      ring
    · rw [if_neg hk] at h
      have hs : setByKey (kv :: rest) k f = kv :: setByKey rest k f := by
        show (if kv.1 = k then (kv.1, f kv.2) else kv) :: setByKey rest k f = _
        rw [if_neg hk]
      rw [hs]
      simp only [List.map_cons, List.sum_cons]
      rw [ih hnd.2 h]
      ring

/-- Unfolding an active-product lookup. -/
theorem lookupActive_eq_some {s : State} {pid : Nat} {p : Product}
    (h : lookupActive s pid = some p) :
    findByKey s.products pid = some p ∧ p.isActive = true := by
  unfold lookupActive at h
  cases hp : findByKey s.products pid with
  | none => rw [hp] at h; simp at h
  | some p' =>
    simp only [hp] at h
    by_cases ha : p'.isActive
    · rw [if_pos ha] at h
      cases h
      exact ⟨rfl, ha⟩
    · rw [if_neg ha] at h
      simp at h

/-- Success equation for `createSaleInventoryLog`. -/
theorem createSaleInventoryLog_eq_ok {s : State} {pid : Nat} {q : Int}
    {sid : Nat} {dir : SaleDirection} {p : Product}
    (hp : findByKey s.products pid = some p)
    (hg : ¬ (dir = .SALE ∧ p.quantity < q)) :
    createSaleInventoryLog s pid q sid dir =
      .ok ({ s with
              products := setByKey s.products pid
                (fun p' => { p' with
                  quantity := (saleLogEntry pid q sid dir p.quantity).newStock })
              logs := s.logs ++ [saleLogEntry pid q sid dir p.quantity] },
           saleLogEntry pid q sid dir p.quantity) := by
  unfold createSaleInventoryLog saleLogEntry
  simp only [hp]
  rw [if_neg hg, if_neg hg]

/-- Success analysis for `createSaleInventoryLog`. -/
theorem createSaleInventoryLog_ok {s : State} {pid : Nat} {q : Int}
    {sid : Nat} {dir : SaleDirection} {s1 : State} {log : InventoryLog}
    (h : createSaleInventoryLog s pid q sid dir = .ok (s1, log)) :
    ∃ p, findByKey s.products pid = some p ∧
      ¬ (dir = .SALE ∧ p.quantity < q) ∧
      log = saleLogEntry pid q sid dir p.quantity ∧
      s1 = { s with
              products := setByKey s.products pid
                (fun p' => { p' with quantity := log.newStock })
              logs := s.logs ++ [log] } := by
  cases hp : findByKey s.products pid with
  | none =>
    unfold createSaleInventoryLog at h
    rw [hp] at h
    simp at h
  | some p =>
    by_cases hg : dir = .SALE ∧ p.quantity < q
    · unfold createSaleInventoryLog at h
      simp only [hp] at h
      rw [if_pos hg] at h
      simp at h
    · rw [createSaleInventoryLog_eq_ok hp hg] at h
      simp only [Except.ok.injEq, Prod.mk.injEq] at h
      obtain ⟨h1, h2⟩ := h
      subst h2
      subst h1
      exact ⟨p, rfl, hg, rfl, rfl⟩

/-- Success equation for `stockIn`. -/
theorem stockIn_eq_ok {s : State} {pid : Nat} {q : Int} {cp : Option Rat}
    {p : Product} (hq : ¬ q ≤ 0) (hl : lookupActive s pid = some p) :
    stockIn s pid q cp = .ok
      ({ s with
          products := setByKey s.products pid (fun p' =>
            { p' with
              quantity := p.quantity + q
              costPrice := applyCost cp p'.costPrice })
          logs := s.logs ++ [stockInEntry pid q p.quantity] },
       stockInEntry pid q p.quantity) := by
  unfold stockIn stockInEntry
  rw [if_neg hq]
  simp only [hl]

/-- Success analysis for `stockIn`. -/
theorem stockIn_ok {s : State} {pid : Nat} {q : Int} {cp : Option Rat}
    {s1 : State} {log : InventoryLog}
    (h : stockIn s pid q cp = .ok (s1, log)) :
    0 < q ∧ ∃ p, lookupActive s pid = some p ∧
      log = stockInEntry pid q p.quantity ∧
      s1 = { s with
              products := setByKey s.products pid (fun p' =>
                { p' with
                  quantity := p.quantity + q
                  costPrice := applyCost cp p'.costPrice })
              logs := s.logs ++ [log] } := by
  by_cases hq : q ≤ 0
  · unfold stockIn at h
    rw [if_pos hq] at h
    simp at h
  · cases hl : lookupActive s pid with
    | none =>
      unfold stockIn at h
      rw [if_neg hq] at h
      simp only [hl] at h
      simp at h
    | some p =>
      rw [stockIn_eq_ok hq hl] at h
      simp only [Except.ok.injEq, Prod.mk.injEq] at h
      obtain ⟨h1, h2⟩ := h
      subst h2
      subst h1
      exact ⟨by omega, p, rfl, rfl, rfl⟩

/-- Success equation for `stockOut`. -/
theorem stockOut_eq_ok {s : State} {pid : Nat} {q : Int} {p : Product}
    (hq : ¬ q ≤ 0) (hl : lookupActive s pid = some p)
    (hs : ¬ p.quantity < q) :
    stockOut s pid q = .ok
      ({ s with
          products := setByKey s.products pid
            (fun p' => { p' with quantity := p.quantity - q })
          logs := s.logs ++ [stockOutEntry pid q p.quantity] },
       stockOutEntry pid q p.quantity) := by
  unfold stockOut stockOutEntry
  rw [if_neg hq]
  simp only [hl]
  rw [if_neg hs, if_neg hs]

/-- Success analysis for `stockOut`. -/
theorem stockOut_ok {s : State} {pid : Nat} {q : Int} {s1 : State}
    {log : InventoryLog} (h : stockOut s pid q = .ok (s1, log)) :
    0 < q ∧ ∃ p, lookupActive s pid = some p ∧ ¬ p.quantity < q ∧
      log = stockOutEntry pid q p.quantity ∧
      s1 = { s with
              products := setByKey s.products pid
                (fun p' => { p' with quantity := p.quantity - q })
              logs := s.logs ++ [log] } := by
  by_cases hq : q ≤ 0
  · unfold stockOut at h
    rw [if_pos hq] at h
    simp at h
  · cases hl : lookupActive s pid with
    | none =>
      unfold stockOut at h
      rw [if_neg hq] at h
      simp only [hl] at h
      simp at h
    | some p =>
      by_cases hs : p.quantity < q
      · unfold stockOut at h
        rw [if_neg hq] at h
        simp only [hl] at h
        rw [if_pos hs] at h
        simp at h
      · rw [stockOut_eq_ok hq hl hs] at h
        simp only [Except.ok.injEq, Prod.mk.injEq] at h
        obtain ⟨h1, h2⟩ := h
        subst h2
        subst h1
        exact ⟨by omega, p, rfl, hs, rfl, rfl⟩

/-- Success equation for `adjustStock`. -/
theorem adjustStock_eq_ok {s : State} {pid : Nat} {target : Int}
    {p : Product} (ht : ¬ target < 0) (hl : lookupActive s pid = some p) :
    adjustStock s pid target = .ok
      ({ s with
          products := setByKey s.products pid
            (fun p' => { p' with quantity := target })
          logs := s.logs ++ [adjustEntry pid target p.quantity] },
       adjustEntry pid target p.quantity) := by
  unfold adjustStock adjustEntry
  rw [if_neg ht]
  simp only [hl]

/-- Success analysis for `adjustStock`. -/
theorem adjustStock_ok {s : State} {pid : Nat} {target : Int} {s1 : State}
    {log : InventoryLog} (h : adjustStock s pid target = .ok (s1, log)) :
    ¬ target < 0 ∧ ∃ p, lookupActive s pid = some p ∧
      log = adjustEntry pid target p.quantity ∧
      s1 = { s with
              products := setByKey s.products pid
                (fun p' => { p' with quantity := target })
              logs := s.logs ++ [log] } := by
  by_cases ht : target < 0
  · unfold adjustStock at h
    rw [if_pos ht] at h
    simp at h
  · cases hl : lookupActive s pid with
    | none =>
      unfold adjustStock at h
      rw [if_neg ht] at h
      simp only [hl] at h
      simp at h
    | some p =>
      rw [adjustStock_eq_ok ht hl] at h
      simp only [Except.ok.injEq, Prod.mk.injEq] at h
      obtain ⟨h1, h2⟩ := h
      subst h2
      subst h1
      exact ⟨ht, p, rfl, rfl, rfl⟩

/-- A keyed update whose replacement has nonnegative quantity preserves
nonnegativity of all quantities. -/
theorem nonneg_setByKey {l : List (Nat × Product)} {k : Nat}
    {f : Product → Product} (hn : ∀ kv ∈ l, 0 ≤ kv.2.quantity)
    (hf : ∀ p : Product, 0 ≤ (f p).quantity) :
    ∀ kv ∈ setByKey l k f, 0 ≤ kv.2.quantity := by
  intro kv hkv
  obtain ⟨kv0, hm, heq⟩ := mem_setByKey hkv
  subst heq
  by_cases hk : kv0.1 = k
  · rw [if_pos hk]
    exact hf kv0.2
  · rw [if_neg hk]
    exact hn kv0 hm

/-- Reduction of the ledger phase over a successful head item. -/
theorem runLedger_cons_ok {s s1 : State} {log : InventoryLog}
    {it : SaleItemInput} {rest : List SaleItemInput} {sid : Nat}
    (hc : createSaleInventoryLog s it.productId it.quantity sid .SALE =
      .ok (s1, log)) :
    runLedger s (it :: rest) sid = runLedger s1 rest sid := by
  simp only [runLedger, hc]

/-- Reduction of the ledger phase over a failing head item. -/
theorem runLedger_cons_err {s : State} {e : OpError}
    {it : SaleItemInput} {rest : List SaleItemInput} {sid : Nat}
    (hc : createSaleInventoryLog s it.productId it.quantity sid .SALE =
      .error e) :
    runLedger s (it :: rest) sid = (s, some e) := by
  simp only [runLedger, hc]

/-- Reduction of the restock phase over a successful head item. -/
theorem runReturns_cons_ok {s s1 : State} {log : InventoryLog}
    {it : SaleItem} {rest : List SaleItem} {sid : Nat}
    (hc : createSaleInventoryLog s it.productId it.quantity sid .RETURN =
      .ok (s1, log)) :
    runReturns s (it :: rest) sid = runReturns s1 rest sid := by
  simp only [runReturns, hc]

/-- Reduction of the restock phase over a failing head item. -/
theorem runReturns_cons_err {s : State} {e : OpError}
    {it : SaleItem} {rest : List SaleItem} {sid : Nat}
    (hc : createSaleInventoryLog s it.productId it.quantity sid .RETURN =
      .error e) :
    runReturns s (it :: rest) sid = (s, some e) := by
  simp only [runReturns, hc]

/-- A successful sale-driven movement keeps every product quantity
nonnegative: a `SALE` passes the sufficiency check, a `RETURN` adds a
nonnegative quantity. -/
theorem createSaleInventoryLog_nonneg {s : State} {pid : Nat} {q : Int}
    {sid : Nat} {dir : SaleDirection} {s1 : State} {log : InventoryLog}
    (h : createSaleInventoryLog s pid q sid dir = .ok (s1, log))
    (hn : nonneg s) (hq : dir = .RETURN → 0 ≤ q) : nonneg s1 := by
  obtain ⟨p, hp, hg, hlog, hs1⟩ := createSaleInventoryLog_ok h
  have hp0 : 0 ≤ p.quantity := hn (pid, p) (findByKey_mem hp)
  subst hs1
  intro kv hkv
  have hkv2 : kv ∈ setByKey s.products pid
      (fun p' => { p' with quantity := log.newStock }) := hkv
  refine nonneg_setByKey hn ?_ kv hkv2
  intro p'
  subst hlog
  cases dir with
  | SALE =>
    have hns : ¬ p.quantity < q := fun hc => hg ⟨rfl, hc⟩
    show 0 ≤ p.quantity - q
    omega
  | RETURN =>
    have hq0 : 0 ≤ q := hq rfl
    show 0 ≤ p.quantity + q
    omega

/-- The ledger phase of `createSale` touches neither sales nor customers. -/
theorem runLedger_frame : ∀ (items : List SaleItemInput) (s : State) (sid : Nat),
    (runLedger s items sid).1.sales = s.sales ∧
    (runLedger s items sid).1.customers = s.customers := by
  intro items
  induction items with
  | nil => intro s sid; exact ⟨rfl, rfl⟩
  | cons it rest ih =>
    intro s sid
    cases hc : createSaleInventoryLog s it.productId it.quantity sid .SALE with
    | error e => rw [runLedger_cons_err hc]; exact ⟨rfl, rfl⟩
    | ok r =>
      rcases r with ⟨s1, log⟩
      rw [runLedger_cons_ok hc]
      obtain ⟨p, hp, hg, hlog, hs1⟩ := createSaleInventoryLog_ok hc
      subst hs1
      exact ih _ sid

/-- The restock phase of `updateSaleStatus` touches neither sales nor
customers. -/
theorem runReturns_frame : ∀ (items : List SaleItem) (s : State) (sid : Nat),
    (runReturns s items sid).1.sales = s.sales ∧
    (runReturns s items sid).1.customers = s.customers := by
  intro items
  induction items with
  | nil => intro s sid; exact ⟨rfl, rfl⟩
  | cons it rest ih =>
    intro s sid
    cases hc : createSaleInventoryLog s it.productId it.quantity sid .RETURN with
    | error e => rw [runReturns_cons_err hc]; exact ⟨rfl, rfl⟩
    | ok r =>
      rcases r with ⟨s1, log⟩
      rw [runReturns_cons_ok hc]
      obtain ⟨p, hp, hg, hlog, hs1⟩ := createSaleInventoryLog_ok hc
      subst hs1
      exact ih _ sid

/-- The ledger phase of `createSale` keeps all product quantities
nonnegative. -/
theorem runLedger_nonneg : ∀ (items : List SaleItemInput) (s : State) (sid : Nat),
    nonneg s → nonneg (runLedger s items sid).1 := by
  intro items
  induction items with
  | nil => intro s sid hn; exact hn
  | cons it rest ih =>
    intro s sid hn
    cases hc : createSaleInventoryLog s it.productId it.quantity sid .SALE with
    | error e => rw [runLedger_cons_err hc]; exact hn
    | ok r =>
      rcases r with ⟨s1, log⟩
      rw [runLedger_cons_ok hc]
      exact ih s1 sid (createSaleInventoryLog_nonneg hc hn (by simp))

/-- The restock phase keeps all product quantities nonnegative when the
restocked line-item quantities are nonnegative. -/
theorem runReturns_nonneg : ∀ (items : List SaleItem) (s : State) (sid : Nat),
    nonneg s → (∀ it ∈ items, 0 ≤ it.quantity) →
    nonneg (runReturns s items sid).1 := by
  intro items
  induction items with
  | nil => intro s sid hn _; exact hn
  | cons it rest ih =>
    intro s sid hn hq
    cases hc : createSaleInventoryLog s it.productId it.quantity sid .RETURN with
    | error e => rw [runReturns_cons_err hc]; exact hn
    | ok r =>
      rcases r with ⟨s1, log⟩
      rw [runReturns_cons_ok hc]
      have h1 : nonneg s1 :=
        createSaleInventoryLog_nonneg hc hn
          (fun _ => hq it (List.mem_cons_self _ _))
      exact ih s1 sid h1 (fun it' hm => hq it' (List.mem_cons_of_mem _ hm))

/-- When every restocked product exists, the restock phase succeeds and
preserves key existence. -/
theorem runReturns_none : ∀ (items : List SaleItem) (s : State) (sid : Nat),
    (∀ it ∈ items, (findByKey s.products it.productId).isSome) →
    (runReturns s items sid).2 = none ∧
    (∀ k, (findByKey (runReturns s items sid).1.products k).isSome =
      (findByKey s.products k).isSome) := by
  intro items
  induction items with
  | nil => intro s sid _; exact ⟨rfl, fun _ => rfl⟩
  | cons it rest ih =>
    intro s sid hex
    have h0 : (findByKey s.products it.productId).isSome :=
      hex it (List.mem_cons_self _ _)
    cases hp : findByKey s.products it.productId with
    | none => rw [hp] at h0; simp at h0
    | some p =>
      have hg : ¬ ((SaleDirection.RETURN) = .SALE ∧ p.quantity < it.quantity) := by
        intro hc2
        cases hc2.1
      have hc := @createSaleInventoryLog_eq_ok s it.productId it.quantity sid
        .RETURN p hp hg
      rw [runReturns_cons_ok hc]
      have hkeys : ∀ k,
          (findByKey (setByKey s.products it.productId
            (fun p' => { p' with
              quantity := (saleLogEntry it.productId it.quantity sid
                .RETURN p.quantity).newStock })) k).isSome =
          (findByKey s.products k).isSome :=
        fun k => isSome_findByKey_setByKey _ _ _ _
      have hex2 : ∀ it' ∈ rest,
          (findByKey ({ s with
            products := setByKey s.products it.productId
              (fun p' => { p' with
                quantity := (saleLogEntry it.productId it.quantity sid
                  .RETURN p.quantity).newStock })
            logs := s.logs ++ [saleLogEntry it.productId it.quantity sid
              .RETURN p.quantity] } : State).products it'.productId).isSome := by
        intro it' hm
        have h3 := hkeys it'.productId
        have h4 : (findByKey s.products it'.productId).isSome :=
          hex it' (List.mem_cons_of_mem _ hm)
        rw [← h3] at h4
        exact h4
      obtain ⟨hih1, hih2⟩ := ih _ sid hex2
      refine ⟨hih1, ?_⟩
      intro k
      rw [hih2 k]
      exact hkeys k

/-- Left components of a pointwise-related pair of lists each have a
related partner. -/
theorem forall2_mem_left {R : α → β → Prop} :
    ∀ {l1 : List α} {l2 : List β}, List.Forall₂ R l1 l2 →
      ∀ a ∈ l1, ∃ b, R a b := by
  intro l1
  induction l1 with
  | nil => intro l2 _ a ha; simp at ha
  | cons x rest ih =>
    intro l2 h a ha
    cases h with
    | cons hR hrest =>
      rcases List.mem_cons.mp ha with h1 | h1
      · subst h1
        exact ⟨_, hR⟩
      · exact ih hrest a h1

/-- Pricing specification of `createSale`'s validation loop: a successful
pass returns one line item per input item, in order, priced by `priceOf`
from the product's current price and checked against current stock, and
the accumulated total is the sum of the line totals. -/
theorem priceItems_ok {s : State} :
    ∀ {items : List SaleItemInput} {sis : List SaleItem} {tot : Rat},
      priceItems s items = .ok (sis, tot) →
      sis.length = items.length ∧
      tot = (sis.map (fun si => si.totalPrice)).sum ∧
      List.Forall₂ (fun (it : SaleItemInput) (si : SaleItem) =>
        ∃ p, lookupActive s it.productId = some p ∧
          ¬ p.quantity < it.quantity ∧
          si.productId = it.productId ∧ si.quantity = it.quantity ∧
          si.unitPrice = priceOf it.unitPrice p.price ∧
          si.totalPrice = si.unitPrice * (si.quantity : Rat)) items sis := by
  intro items
  induction items with
  | nil =>
    intro sis tot h
    unfold priceItems at h
    simp only [Except.ok.injEq, Prod.mk.injEq] at h
    obtain ⟨h1, h2⟩ := h
    subst h1
    subst h2
    exact ⟨rfl, by simp, List.Forall₂.nil⟩
  | cons it rest ih =>
    intro sis tot h
    unfold priceItems at h
    cases hl : lookupActive s it.productId with
    | none =>
      simp only [hl] at h
      simp at h
    | some p =>
      simp only [hl] at h
      by_cases hs : p.quantity < it.quantity
      · rw [if_pos hs] at h
        simp at h
      · rw [if_neg hs] at h
        cases hr : priceItems s rest with
        | error e =>
          simp only [hr] at h
          simp at h
        | ok r =>
          rcases r with ⟨ris, rtot⟩
          simp only [hr, Except.ok.injEq, Prod.mk.injEq] at h
          obtain ⟨h1, h2⟩ := h
          subst h1
          subst h2
          obtain ⟨l1, l2, l3⟩ := ih hr
          refine ⟨by simp [l1], by simp [l2], ?_⟩
          exact List.Forall₂.cons ⟨p, hl, hs, rfl, rfl, rfl, rfl⟩ l3

/-- When every item is backed by sufficient committed stock and no product
occurs twice, the ledger phase of `createSale` succeeds and appends one
log entry per item. -/
theorem runLedger_ok_all : ∀ (items : List SaleItemInput) (s : State) (sid : Nat),
    (∀ it ∈ items, ∃ p, findByKey s.products it.productId = some p ∧
      ¬ p.quantity < it.quantity) →
    (items.map (fun it => it.productId)).Nodup →
    (runLedger s items sid).2 = none ∧
    (runLedger s items sid).1.logs.length = s.logs.length + items.length := by
  intro items
  induction items with
  | nil => intro s sid _ _; constructor <;> simp [runLedger]
  | cons it rest ih =>
    intro s sid hstock hnd
    obtain ⟨p, hp, hs⟩ := hstock it (List.mem_cons_self _ _)
    have hg : ¬ ((SaleDirection.SALE) = .SALE ∧ p.quantity < it.quantity) :=
      fun hc => hs hc.2
    have hc := @createSaleInventoryLog_eq_ok s it.productId it.quantity sid
      .SALE p hp hg
    rw [runLedger_cons_ok hc]
    rw [List.map_cons, List.nodup_cons] at hnd
    have hstock2 : ∀ it' ∈ rest, ∃ p',
        findByKey ({ s with
          products := setByKey s.products it.productId
            (fun p' => { p' with
              quantity := (saleLogEntry it.productId it.quantity sid
                .SALE p.quantity).newStock })
          logs := s.logs ++ [saleLogEntry it.productId it.quantity sid
            .SALE p.quantity] } : State).products it'.productId = some p' ∧
        ¬ p'.quantity < it'.quantity := by
      intro it' hm
      obtain ⟨p', hp', hs'⟩ := hstock it' (List.mem_cons_of_mem _ hm)
      refine ⟨p', ?_, hs'⟩
      have hne : ¬ it'.productId = it.productId := by
        intro hc2
        exact hnd.1 (hc2 ▸ List.mem_map.mpr ⟨it', hm, rfl⟩)
      have h5 : findByKey (setByKey s.products it.productId
          (fun p' => { p' with
            quantity := (saleLogEntry it.productId it.quantity sid
              .SALE p.quantity).newStock })) it'.productId = some p' := by
        rw [findByKey_setByKey, if_neg hne]
        exact hp'
      exact h5
    obtain ⟨hih1, hih2⟩ := ih _ sid hstock2 hnd.2
    refine ⟨hih1, ?_⟩
    rw [hih2]
    simp
    omega

/-- Master analysis of `createSale`: a failing call leaves the state
exactly as it was (the ledger phase cannot fail once the validation loop
has passed and the unique index has admitted the line items), and a
successful call appends exactly the new sale row plus one ledger entry per
line item. -/
theorem createSale_master (s : State) (cust : Option Nat)
    (items : List SaleItemInput) (pm : Option PaymentMethod)
    (tax disc : Rat) (staff sid snum : Nat) :
    (∀ e, (createSale s cust items pm tax disc staff sid snum).2 = .error e →
      (createSale s cust items pm tax disc staff sid snum).1 = s) ∧
    (∀ sale, (createSale s cust items pm tax disc staff sid snum).2 = .ok sale →
      ∃ pmv saleItems totalAmount,
        pm = some pmv ∧
        priceItems s items = .ok (saleItems, totalAmount) ∧
        sale = { saleNumber := snum, totalAmount := totalAmount,
                 taxAmount := tax, discount := disc,
                 finalAmount := totalAmount + tax - disc,
                 paymentMethod := pmv, status := .COMPLETED,
                 staffId := staff, customerId := cust, items := saleItems } ∧
        (createSale s cust items pm tax disc staff sid snum).1.sales =
          s.sales ++ [(sid, sale)] ∧
        (createSale s cust items pm tax disc staff sid snum).1.logs.length =
          s.logs.length + items.length) := by
  unfold createSale
  by_cases h1 : items.isEmpty = true
  · rw [if_pos h1]
    exact ⟨fun e _ => rfl, fun sale h => by simp at h⟩
  · rw [if_neg h1]
    by_cases h2 : (items.any fun it => decide (it.quantity ≤ 0)) = true
    · rw [if_pos h2]
      exact ⟨fun e _ => rfl, fun sale h => by simp at h⟩
    · rw [if_neg h2]
      cases pm with
      | none => exact ⟨fun e _ => rfl, fun sale h => by simp at h⟩
      | some pmv =>
        simp only []
        by_cases h4 : (cust.all fun c => s.customers.contains c) = true
        · rw [if_pos h4]
          cases hpr : priceItems s items with
          | error e0 =>
            simp only [hpr]
            exact ⟨fun e h => trivial, fun sale h => Except.noConfusion h⟩
          | ok r =>
            rcases r with ⟨saleItems, totalAmount⟩
            simp only [hpr]
            by_cases h6 : (items.map fun it => it.productId).Nodup
            · rw [if_pos h6]
              obtain ⟨hl1, hl2, hl3⟩ := priceItems_ok hpr
              have hstock : ∀ it ∈ items, ∃ p,
                  findByKey s.products it.productId = some p ∧
                  ¬ p.quantity < it.quantity := by
                intro it hm
                obtain ⟨si, p, hla, hsuf, _⟩ := forall2_mem_left hl3 it hm
                exact ⟨p, (lookupActive_eq_some hla).1, hsuf⟩
              obtain ⟨hr1, hr2⟩ := runLedger_ok_all items s sid hstock h6
              have hfr := runLedger_frame items s sid
              cases hrl : runLedger s items sid with
              | mk s1 oe =>
                cases oe with
                | some e0 =>
                  rw [hrl] at hr1
                  simp at hr1
                | none =>
                  simp only [hrl]
                  rw [hrl] at hr2 hfr
                  have hr2b : s1.logs.length = s.logs.length + items.length := hr2
                  have hfrb : s1.sales = s.sales := hfr.1
                  constructor
                  · intro e h
                    simp at h
                  · intro sale h
                    simp only [Except.ok.injEq] at h
                    subst h
                    refine ⟨pmv, saleItems, totalAmount, rfl, rfl, rfl, ?_, ?_⟩
                    · show s1.sales ++ [(sid, _)] = s.sales ++ [(sid, _)]
                      rw [hfrb]
                    · show s1.logs.length = s.logs.length + items.length
                      exact hr2b
            · rw [if_neg h6]
              exact ⟨fun e _ => rfl, fun sale h => by simp at h⟩
        · rw [if_neg h4]
          exact ⟨fun e _ => rfl, fun sale h => by simp at h⟩

/-- `updateSaleStatus` on a missing sale. -/
theorem updateSaleStatus_notFound {s : State} {sid : Nat} {ns : SaleStatus}
    (hsale : findByKey s.sales sid = none) :
    updateSaleStatus s sid ns = (s, .error .saleNotFound) := by
  unfold updateSaleStatus
  simp only [hsale]

/-- `updateSaleStatus` on an invalid transition: rejected before any write,
with the error naming both states. -/
theorem updateSaleStatus_invalid {s : State} {sid : Nat} {ns : SaleStatus}
    {sale : Sale} (hsale : findByKey s.sales sid = some sale)
    (hv : isValidStatusTransition sale.status ns = false) :
    updateSaleStatus s sid ns =
      (s, .error (.invalidTransition sale.status ns)) := by
  unfold updateSaleStatus
  simp only [hsale, hv]
  simp

/-- `updateSaleStatus` on a valid transition that triggers no restock. -/
theorem updateSaleStatus_plain {s : State} {sid : Nat} {ns : SaleStatus}
    {sale : Sale} (hsale : findByKey s.sales sid = some sale)
    (hv : isValidStatusTransition sale.status ns = true)
    (hns : ¬ (ns = .REFUNDED ∨ ns = .CANCELLED)) :
    updateSaleStatus s sid ns =
      ({ s with
          sales := setByKey s.sales sid (fun _ => { sale with status := ns }) },
       .ok { sale with status := ns }) := by
  unfold updateSaleStatus
  simp only [hsale, hv]
  rw [if_true, if_neg hns]

/-- `updateSaleStatus` on a valid restocking transition whose restock phase
succeeds. -/
theorem updateSaleStatus_return_eq {s : State} {sid : Nat} {ns : SaleStatus}
    {sale : Sale} {s2 : State}
    (hsale : findByKey s.sales sid = some sale)
    (hv : isValidStatusTransition sale.status ns = true)
    (hns : ns = .REFUNDED ∨ ns = .CANCELLED)
    (hrr : runReturns
        { s with
          sales := setByKey s.sales sid (fun _ => { sale with status := ns }) }
        sale.items sid = (s2, none)) :
    updateSaleStatus s sid ns = (s2, .ok { sale with status := ns }) := by
  unfold updateSaleStatus
  simp only [hsale, hv]
  rw [if_true, if_pos hns]
  simp only [hrr]

/-- `updateSaleStatus` on a valid restocking transition whose restock phase
fails: the status write is rolled back, the committed restocks stay. -/
theorem updateSaleStatus_return_err {s : State} {sid : Nat} {ns : SaleStatus}
    {sale : Sale} {s2 : State} {e : OpError}
    (hsale : findByKey s.sales sid = some sale)
    (hv : isValidStatusTransition sale.status ns = true)
    (hns : ns = .REFUNDED ∨ ns = .CANCELLED)
    (hrr : runReturns
        { s with
          sales := setByKey s.sales sid (fun _ => { sale with status := ns }) }
        sale.items sid = (s2, some e)) :
    updateSaleStatus s sid ns = ({ s2 with sales := s.sales }, .error e) := by
  unfold updateSaleStatus
  simp only [hsale, hv]
  rw [if_true, if_pos hns]
  simp only [hrr]

/-- Right components of a pointwise-related pair of lists each have a
related partner. -/
theorem forall2_mem_right {R : α → β → Prop} :
    ∀ {l1 : List α} {l2 : List β}, List.Forall₂ R l1 l2 →
      ∀ b ∈ l2, ∃ a ∈ l1, R a b := by
  intro l1
  induction l1 with
  | nil =>
    intro l2 h b hb
    cases h
    simp at hb
  | cons x rest ih =>
    intro l2 h b hb
    cases h with
    | cons hR hrest =>
      rcases List.mem_cons.mp hb with h1 | h1
      · subst h1
        exact ⟨x, List.mem_cons_self _ _, hR⟩
      · obtain ⟨a, ha, haR⟩ := ih hrest b h1
        exact ⟨a, List.mem_cons_of_mem _ ha, haR⟩

/-- Nonnegativity of quantities transfers along a products equation. -/
theorem nonneg_of_products {s1 : State} {l : List (Nat × Product)}
    (hl : s1.products = l) (h : ∀ kv ∈ l, 0 ≤ kv.2.quantity) : nonneg s1 := by
  intro kv hkv
  rw [hl] at hkv
  exact h kv hkv

/-- Nonnegativity of line items transfers along a sales equation. -/
theorem itemsNonneg_of_sales {s1 : State} {l : List (Nat × Sale)}
    (hl : s1.sales = l)
    (h : ∀ kv ∈ l, ∀ it ∈ kv.2.items, 0 ≤ it.quantity) : itemsNonneg s1 := by
  intro kv hkv
  rw [hl] at hkv
  exact h kv hkv

/-- A keyed update of the sales table whose replacement has nonnegative
line-item quantities preserves nonnegativity of line items. -/
theorem itemsNonneg_setByKey {sl : List (Nat × Sale)} {k : Nat}
    {f : Sale → Sale}
    (hi : ∀ kv ∈ sl, ∀ it ∈ kv.2.items, 0 ≤ it.quantity)
    (hf : ∀ v : Sale, ∀ it ∈ (f v).items, 0 ≤ it.quantity) :
    ∀ kv ∈ setByKey sl k f, ∀ it ∈ kv.2.items, 0 ≤ it.quantity := by
  intro kv hkv
  obtain ⟨kv0, hm, heq⟩ := mem_setByKey hkv
  subst heq
  by_cases hk : kv0.1 = k
  · rw [if_pos hk]
    exact hf kv0.2
  · rw [if_neg hk]
    exact hi kv0 hm

/-- `createSale` preserves nonnegative stock and nonnegative stored
line-item quantities, whatever its outcome. -/
theorem createSale_nonneg (s : State) (cust : Option Nat)
    (items : List SaleItemInput) (pm : Option PaymentMethod)
    (tax disc : Rat) (staff sid snum : Nat)
    (hn : nonneg s) (hi : itemsNonneg s) :
    nonneg (createSale s cust items pm tax disc staff sid snum).1 ∧
    itemsNonneg (createSale s cust items pm tax disc staff sid snum).1 := by
  unfold createSale
  by_cases h1 : items.isEmpty = true
  · rw [if_pos h1]; exact ⟨hn, hi⟩
  · rw [if_neg h1]
    by_cases h2 : (items.any fun it => decide (it.quantity ≤ 0)) = true
    · rw [if_pos h2]; exact ⟨hn, hi⟩
    · rw [if_neg h2]
      cases pm with
      | none => exact ⟨hn, hi⟩
      | some pmv =>
        simp only []
        by_cases h4 : (cust.all fun c => s.customers.contains c) = true
        · rw [if_pos h4]
          cases hpr : priceItems s items with
          | error e0 => simp only [hpr]; exact ⟨hn, hi⟩
          | ok r =>
            rcases r with ⟨saleItems, totalAmount⟩
            simp only [hpr]
            by_cases h6 : (items.map fun it => it.productId).Nodup
            · rw [if_pos h6]
              have hfr := runLedger_frame items s sid
              have hnl := runLedger_nonneg items s sid hn
              cases hrl : runLedger s items sid with
              | mk s1 oe =>
                rw [hrl] at hfr hnl
                have hfrb : s1.sales = s.sales := hfr.1
                have hnlb : nonneg s1 := hnl
                cases oe with
                | some e0 =>
                  simp only [hrl]
                  refine ⟨hnlb, ?_⟩
                  refine itemsNonneg_of_sales rfl ?_
                  rw [hfrb]
                  exact hi
                | none =>
                  simp only [hrl]
                  refine ⟨nonneg_of_products rfl hnlb, ?_⟩
                  refine itemsNonneg_of_sales rfl ?_
                  rw [hfrb]
                  intro kv hkv it hit
                  rcases List.mem_append.mp hkv with hm | hm
                  · exact hi kv hm it hit
                  · have hkv2 : kv = (sid,
                        ({ saleNumber := snum, totalAmount := totalAmount,
                           taxAmount := tax, discount := disc,
                           finalAmount := totalAmount + tax - disc,
                           paymentMethod := pmv, status := .COMPLETED,
                           staffId := staff, customerId := cust,
                           items := saleItems } : Sale)) := by
                      simpa using hm
                    subst hkv2
                    obtain ⟨_, _, hl3⟩ := priceItems_ok hpr
                    obtain ⟨inp, hinp, p, _, _, _, hqi, _⟩ :=
                      forall2_mem_right hl3 it hit
                    have hpos : ¬ inp.quantity ≤ 0 := by
                      intro hc
                      apply h2
                      rw [List.any_eq_true]
                      exact ⟨inp, hinp, by simpa using hc⟩
                    rw [hqi]
                    omega
            · rw [if_neg h6]; exact ⟨hn, hi⟩
        · rw [if_neg h4]; exact ⟨hn, hi⟩

/-- `updateSaleStatus` preserves nonnegative stock and nonnegative stored
line-item quantities, whatever its outcome. -/
theorem updateSaleStatus_nonneg (s : State) (sid : Nat) (ns : SaleStatus)
    (hn : nonneg s) (hi : itemsNonneg s) :
    nonneg (updateSaleStatus s sid ns).1 ∧
    itemsNonneg (updateSaleStatus s sid ns).1 := by
  cases hsale : findByKey s.sales sid with
  | none => rw [updateSaleStatus_notFound hsale]; exact ⟨hn, hi⟩
  | some sale =>
    have hitems : ∀ it ∈ sale.items, 0 ≤ it.quantity :=
      hi (sid, sale) (findByKey_mem hsale)
    have hsetSales : ∀ kv ∈ setByKey s.sales sid
        (fun _ => { sale with status := ns }),
        ∀ it ∈ kv.2.items, 0 ≤ it.quantity := by
      refine itemsNonneg_setByKey hi ?_
      intro v it hit
      exact hitems it hit
    cases hv : isValidStatusTransition sale.status ns with
    | false => rw [updateSaleStatus_invalid hsale hv]; exact ⟨hn, hi⟩
    | true =>
      by_cases hns : ns = .REFUNDED ∨ ns = .CANCELLED
      · have hs1n : nonneg ({ s with
            sales := setByKey s.sales sid (fun _ => { sale with status := ns }) } : State) :=
          nonneg_of_products rfl hn
        have hrn := runReturns_nonneg sale.items ({ s with
          sales := setByKey s.sales sid (fun _ => { sale with status := ns }) } : State)
          sid hs1n hitems
        have hrf := runReturns_frame sale.items ({ s with
          sales := setByKey s.sales sid (fun _ => { sale with status := ns }) } : State) sid
        cases hrr : runReturns ({ s with
            sales := setByKey s.sales sid (fun _ => { sale with status := ns }) } : State)
            sale.items sid with
        | mk s2 oe =>
          rw [hrr] at hrn hrf
          have hrnb : nonneg s2 := hrn
          have hrfb : s2.sales =
              setByKey s.sales sid (fun _ => { sale with status := ns }) := hrf.1
          cases oe with
          | some e =>
            rw [updateSaleStatus_return_err hsale hv hns hrr]
            refine ⟨nonneg_of_products rfl hrnb, ?_⟩
            exact itemsNonneg_of_sales rfl hi
          | none =>
            rw [updateSaleStatus_return_eq hsale hv hns hrr]
            refine ⟨hrnb, ?_⟩
            refine itemsNonneg_of_sales hrfb ?_
            exact hsetSales
      · rw [updateSaleStatus_plain hsale hv hns]
        refine ⟨nonneg_of_products rfl hn, ?_⟩
        exact itemsNonneg_of_sales rfl hsetSales

/-- Every core operation preserves nonnegative stock and nonnegative
stored line-item quantities. -/
theorem applyOp_nonneg (s : State) (op : Op) (hn : nonneg s)
    (hi : itemsNonneg s) :
    nonneg (applyOp s op) ∧ itemsNonneg (applyOp s op) := by
  cases op with
  | opStockIn pid q cp =>
    unfold applyOp
    simp only []
    cases hc : stockIn s pid q cp with
    | error e => simp only []; exact ⟨hn, hi⟩
    | ok r =>
      rcases r with ⟨s1, log⟩
      simp only []
      obtain ⟨hq, p, hl, hlog, hs1⟩ := stockIn_ok hc
      have hp0 : 0 ≤ p.quantity :=
        hn (pid, p) (findByKey_mem (lookupActive_eq_some hl).1)
      subst hs1
      constructor
      · intro kv hkv
        have hkv2 : kv ∈ setByKey s.products pid (fun p' =>
            { p' with
              quantity := p.quantity + q
              costPrice := applyCost cp p'.costPrice }) := hkv
        refine nonneg_setByKey hn ?_ kv hkv2
        intro p'
        show 0 ≤ p.quantity + q
        omega
      · exact itemsNonneg_of_sales rfl hi
  | opStockOut pid q =>
    unfold applyOp
    simp only []
    cases hc : stockOut s pid q with
    | error e => simp only []; exact ⟨hn, hi⟩
    | ok r =>
      rcases r with ⟨s1, log⟩
      simp only []
      obtain ⟨hq, p, hl, hs, hlog, hs1⟩ := stockOut_ok hc
      subst hs1
      constructor
      · intro kv hkv
        have hkv2 : kv ∈ setByKey s.products pid
            (fun p' => { p' with quantity := p.quantity - q }) := hkv
        refine nonneg_setByKey hn ?_ kv hkv2
        intro p'
        show 0 ≤ p.quantity - q
        omega
      · exact itemsNonneg_of_sales rfl hi
  | opAdjustStock pid t =>
    unfold applyOp
    simp only []
    cases hc : adjustStock s pid t with
    | error e => simp only []; exact ⟨hn, hi⟩
    | ok r =>
      rcases r with ⟨s1, log⟩
      simp only []
      obtain ⟨ht, p, hl, hlog, hs1⟩ := adjustStock_ok hc
      subst hs1
      constructor
      · intro kv hkv
        have hkv2 : kv ∈ setByKey s.products pid
            (fun p' => { p' with quantity := t }) := hkv
        refine nonneg_setByKey hn ?_ kv hkv2
        intro p'
        show 0 ≤ t
        omega
      · exact itemsNonneg_of_sales rfl hi
  | opCreateSale cust items pm tax disc staff sid snum =>
    exact createSale_nonneg s cust items pm tax disc staff sid snum hn hi
  | opUpdateSaleStatus sid ns =>
    exact updateSaleStatus_nonneg s sid ns hn hi

/-- First phase against a full stock: the pre-transaction read sees 10. -/
theorem phase1_at10 {st : State} (h : st.products = [(1, prodC8)]) :
    stockOutPhase1 st 1 7 = .checked 10 := by
  unfold stockOutPhase1 lookupActive
  rw [h]
  norm_num [findByKey, prodC8]

/-- First phase after the other call committed: the read sees 3 and fails
the sufficiency check. -/
theorem phase1_at3 {st : State} (h : st.products = [(1, prodC8b)]) :
    stockOutPhase1 st 1 7 = .failedInsufficient := by
  unfold stockOutPhase1 lookupActive
  rw [h]
  norm_num [findByKey, prodC8b, prodC8]

/-- Transaction phase against a full stock: the fresh read passes the
check and the quantity becomes `10 − 7 = 3`. -/
theorem phase2_at10 {st : State} (h : st.products = [(1, prodC8)]) :
    (stockOutPhase2 st 1 7 10).1.products = [(1, prodC8b)] ∧
    (stockOutPhase2 st 1 7 10).2 = .succeeded := by
  unfold stockOutPhase2 lookupActive
  rw [h]
  norm_num [findByKey, setByKey, prodC8, prodC8b]

/-- Transaction phase after the other call committed: the fresh read sees
3 and the transaction aborts with insufficient stock. -/
theorem phase2_at3 {st : State} (h : st.products = [(1, prodC8b)]) :
    stockOutPhase2 st 1 7 10 = (st, .failedInsufficient) := by
  unfold stockOutPhase2 lookupActive
  rw [h]
  norm_num [findByKey, prodC8b, prodC8]

/-- A pending call is in particular not yet failed. -/
theorem preC_postC {c : CallState} (h : preC c) : postC c := by
  rcases h with h | h
  · exact Or.inl h
  · exact Or.inr (Or.inl h)

/-- A finished call absorbs scheduler steps. -/
theorem stepCall_done {st : State} {c : CallState} (hd : c.done = true) :
    stepCall st c 1 7 = (st, c) := by
  cases c <;> first | rfl | simp [CallState.done] at hd

/-- One step of a pending call against a full stock: it either stays
pending with the store untouched, or commits the deduction. -/
theorem stepCall_pre10 {st : State} {c : CallState}
    (hst : st.products = [(1, prodC8)]) (hc : preC c) :
    ((stepCall st c 1 7).1 = st ∧ preC (stepCall st c 1 7).2) ∨
    ((stepCall st c 1 7).1.products = [(1, prodC8b)] ∧
      (stepCall st c 1 7).2 = .succeeded) := by
  rcases hc with rfl | rfl
  · left
    refine ⟨rfl, ?_⟩
    show preC (stockOutPhase1 st 1 7)
    rw [phase1_at10 hst]
    exact Or.inr rfl
  · right
    have h2 := phase2_at10 hst
    exact h2

/-- One step of a pending-or-failed call after the stock dropped to 3: the
store is untouched and the call stays pending or fails. -/
theorem stepCall_post3 {st : State} {c : CallState}
    (hst : st.products = [(1, prodC8b)]) (hc : postC c) :
    (stepCall st c 1 7).1 = st ∧ postC (stepCall st c 1 7).2 := by
  rcases hc with rfl | rfl | rfl
  · refine ⟨rfl, ?_⟩
    show postC (stockOutPhase1 st 1 7)
    rw [phase1_at3 hst]
    exact Or.inr (Or.inr rfl)
  · have h2 := phase2_at3 hst
    show (stockOutPhase2 st 1 7 10).1 = st ∧ postC (stockOutPhase2 st 1 7 10).2
    rw [h2]
    exact ⟨rfl, Or.inr (Or.inr rfl)⟩
  · exact ⟨rfl, Or.inr (Or.inr rfl)⟩

/-- The reachability invariant is preserved by every scheduler step. -/
theorem step2_invC8 {c : TwoCalls} (h : invC8 c) (i : Bool) :
    invC8 (step2 1 7 c i) := by
  cases i
  · show invC8 { c with
      st := (stepCall c.st c.c2 1 7).1
      c2 := (stepCall c.st c.c2 1 7).2 }
    rcases h with ⟨hst, h1, h2⟩ | ⟨hst, hcase⟩
    · rcases stepCall_pre10 hst h2 with ⟨hr1, hr2⟩ | ⟨hr1, hr2⟩
      · left
        exact ⟨by rw [hr1]; exact hst, h1, hr2⟩
      · right
        exact ⟨hr1, Or.inr ⟨preC_postC h1, hr2⟩⟩
    · rcases hcase with ⟨h1succ, h2post⟩ | ⟨h1post, h2succ⟩
      · obtain ⟨hr1, hr2⟩ := stepCall_post3 hst h2post
        right
        exact ⟨by rw [hr1]; exact hst, Or.inl ⟨h1succ, hr2⟩⟩
      · rw [stepCall_done (by rw [h2succ]; rfl)]
        right
        exact ⟨hst, Or.inr ⟨h1post, h2succ⟩⟩
  · show invC8 { c with
      st := (stepCall c.st c.c1 1 7).1
      c1 := (stepCall c.st c.c1 1 7).2 }
    rcases h with ⟨hst, h1, h2⟩ | ⟨hst, hcase⟩
    · rcases stepCall_pre10 hst h1 with ⟨hr1, hr2⟩ | ⟨hr1, hr2⟩
      · left
        exact ⟨by rw [hr1]; exact hst, hr2, h2⟩
      · right
        exact ⟨hr1, Or.inl ⟨hr2, preC_postC h2⟩⟩
    · rcases hcase with ⟨h1succ, h2post⟩ | ⟨h1post, h2succ⟩
      · rw [stepCall_done (by rw [h1succ]; rfl)]
        right
        exact ⟨hst, Or.inl ⟨h1succ, h2post⟩⟩
      · obtain ⟨hr1, hr2⟩ := stepCall_post3 hst h1post
        right
        exact ⟨by rw [hr1]; exact hst, Or.inr ⟨hr2, h2succ⟩⟩

/-- The reachability invariant holds after any schedule. -/
theorem run2_invC8 : ∀ (sched : List Bool) (c : TwoCalls), invC8 c →
    invC8 (run2 1 7 c sched) := by
  intro sched
  induction sched with
  | nil => intro c h; exact h
  | cons i rest ih =>
    intro c h
    exact ih (step2 1 7 c i) (step2_invC8 h i)

/-- A configuration satisfying the invariant with both calls finished has
exactly one success, one insufficiency failure, and quantity 3. -/
theorem invC8_final {c : TwoCalls} (h : invC8 c) (h1 : c.c1.done = true)
    (h2 : c.c2.done = true) :
    ((c.c1 = .succeeded ∧ c.c2 = .failedInsufficient) ∨
      (c.c1 = .failedInsufficient ∧ c.c2 = .succeeded)) ∧
    productQty c.st 1 = some 3 := by
  rcases h with ⟨hst, hp1, hp2⟩ | ⟨hst, hcase⟩
  · rcases hp1 with hp1 | hp1 <;> rw [hp1] at h1 <;> simp [CallState.done] at h1
  · have hq : productQty c.st 1 = some 3 := by
      unfold productQty
      rw [hst]
      rfl
    rcases hcase with ⟨hsucc, hpost⟩ | ⟨hpost, hsucc⟩
    · rcases hpost with hp | hp | hp
      · rw [hp] at h2; simp [CallState.done] at h2
      · rw [hp] at h2; simp [CallState.done] at h2
      · exact ⟨Or.inl ⟨hsucc, hp⟩, hq⟩
    · rcases hpost with hp | hp | hp
      · rw [hp] at h1; simp [CallState.done] at h1
      · rw [hp] at h1; simp [CallState.done] at h1
      · exact ⟨Or.inr ⟨hp, hsucc⟩, hq⟩

/-- Full specification of the restock phase under the schema constraints
(existing products, pairwise-distinct line-item products, unique product
keys): it appends exactly one `RETURN` entry per line item, referencing the
sale and carrying the item's product and quantity; it raises each item's
product quantity by that item's quantity; and it raises the total stock by
the sum of the item quantities. -/
theorem runReturns_spec : ∀ (items : List SaleItem) (s : State) (sid : Nat),
    (∀ it ∈ items, (findByKey s.products it.productId).isSome) →
    (items.map (fun it => it.productId)).Nodup →
    (s.products.map Prod.fst).Nodup →
    (∃ L, (runReturns s items sid).1.logs = s.logs ++ L ∧
      List.Forall₂ (fun (it : SaleItem) (e : InventoryLog) =>
        e.type = .RETURN ∧ e.saleId = some sid ∧
        e.productId = it.productId ∧ e.quantity = it.quantity) items L) ∧
    (∀ it ∈ items, ∀ p, findByKey s.products it.productId = some p →
      findByKey (runReturns s items sid).1.products it.productId =
        some { p with quantity := p.quantity + it.quantity }) ∧
    totalQty (runReturns s items sid).1 =
      totalQty s + (items.map (fun it => it.quantity)).sum ∧
    (runReturns s items sid).1.products.map Prod.fst =
      s.products.map Prod.fst ∧
    (∀ k, k ∉ items.map (fun it => it.productId) →
      findByKey (runReturns s items sid).1.products k =
        findByKey s.products k) := by
  intro items
  induction items with
  | nil =>
    intro s sid _ _ _
    exact ⟨⟨[], by simp [runReturns], List.Forall₂.nil⟩,
      by simp, by simp [runReturns], rfl, fun k _ => rfl⟩
  | cons it rest ih =>
    intro s sid hex hnd hkeys
    have h0 : (findByKey s.products it.productId).isSome :=
      hex it (List.mem_cons_self _ _)
    cases hp : findByKey s.products it.productId with
    | none => rw [hp] at h0; simp at h0
    | some p =>
      have hg : ¬ ((SaleDirection.RETURN) = .SALE ∧ p.quantity < it.quantity) := by
        intro hc2
        cases hc2.1
      have hc := @createSaleInventoryLog_eq_ok s it.productId it.quantity sid
        .RETURN p hp hg
      rw [runReturns_cons_ok hc]
      rw [List.map_cons, List.nodup_cons] at hnd
      have hne : ∀ it' ∈ rest, ¬ it'.productId = it.productId := by
        intro it' hm hc2
        exact hnd.1 (hc2 ▸ List.mem_map.mpr ⟨it', hm, rfl⟩)
      have hlook1 : ∀ q, ¬ q = it.productId →
          findByKey (setByKey s.products it.productId
            (fun p' => { p' with
              quantity := (saleLogEntry it.productId it.quantity sid
                .RETURN p.quantity).newStock })) q = findByKey s.products q := by
        intro q hq
        rw [findByKey_setByKey, if_neg hq]
      have hlook2 : findByKey (setByKey s.products it.productId
          (fun p' => { p' with
            quantity := (saleLogEntry it.productId it.quantity sid
              .RETURN p.quantity).newStock })) it.productId =
          some { p with quantity := p.quantity + it.quantity } := by
        rw [findByKey_setByKey, if_pos rfl, hp]
        rfl
      have hex2 : ∀ it' ∈ rest,
          (findByKey ({ s with
            products := setByKey s.products it.productId
              (fun p' => { p' with
                quantity := (saleLogEntry it.productId it.quantity sid
                  .RETURN p.quantity).newStock })
            logs := s.logs ++ [saleLogEntry it.productId it.quantity sid
              .RETURN p.quantity] } : State).products it'.productId).isSome := by
        intro it' hm
        have h7 : (findByKey (setByKey s.products it.productId
            (fun p' => { p' with
              quantity := (saleLogEntry it.productId it.quantity sid
                .RETURN p.quantity).newStock })) it'.productId).isSome = true := by
          rw [hlook1 _ (hne it' hm)]
          exact hex it' (List.mem_cons_of_mem _ hm)
        exact h7
      have hkeys2 : (({ s with
          products := setByKey s.products it.productId
            (fun p' => { p' with
              quantity := (saleLogEntry it.productId it.quantity sid
                .RETURN p.quantity).newStock })
          logs := s.logs ++ [saleLogEntry it.productId it.quantity sid
            .RETURN p.quantity] } : State).products.map Prod.fst).Nodup := by
        have h8 : ((setByKey s.products it.productId
            (fun p' => { p' with
              quantity := (saleLogEntry it.productId it.quantity sid
                .RETURN p.quantity).newStock })).map Prod.fst).Nodup := by
          rw [keys_setByKey]
          exact hkeys
        exact h8
      obtain ⟨⟨L, hlogs, hfa⟩, hper, htot, hkeyeq, hun⟩ :=
        ih _ sid hex2 hnd.2 hkeys2
      refine ⟨⟨saleLogEntry it.productId it.quantity sid .RETURN p.quantity :: L,
        ?_, ?_⟩, ?_, ?_, ?_, ?_⟩
      · rw [hlogs]
        have h9 : (s.logs ++ [saleLogEntry it.productId it.quantity sid
            .RETURN p.quantity]) ++ L = s.logs ++
            (saleLogEntry it.productId it.quantity sid .RETURN p.quantity :: L) := by
          rw [List.append_assoc]
          rfl
        exact h9
      · exact List.Forall₂.cons ⟨rfl, rfl, rfl, rfl⟩ hfa
      · intro it' hm' p0 hp0
        rcases List.mem_cons.mp hm' with h1 | h1
        · subst h1
          rw [hp] at hp0
          cases hp0
          have hnomem : it'.productId ∉ rest.map (fun x => x.productId) := hnd.1
          rw [hun it'.productId hnomem]
          have h4 : findByKey (setByKey s.products it'.productId
              (fun p' => { p' with
                quantity := (saleLogEntry it'.productId it'.quantity sid
                  .RETURN p.quantity).newStock })) it'.productId =
              some { p with quantity := p.quantity + it'.quantity } := by
            rw [findByKey_setByKey, if_pos rfl, hp]
            rfl
          exact h4
        · have h5 : findByKey (setByKey s.products it.productId
              (fun p' => { p' with
                quantity := (saleLogEntry it.productId it.quantity sid
                  .RETURN p.quantity).newStock })) it'.productId = some p0 := by
            rw [hlook1 _ (hne it' h1)]
            exact hp0
          exact hper it' h1 p0 h5
      · rw [htot]
        have h6 : (((setByKey s.products it.productId
            (fun p' => { p' with
              quantity := (saleLogEntry it.productId it.quantity sid
                .RETURN p.quantity).newStock })).map
            (fun kv => kv.2.quantity)).sum : Int) =
            totalQty s - p.quantity + (p.quantity + it.quantity) := by
          rw [sum_setByKey _ hkeys hp]
          rfl
        have h6b : totalQty ({ s with
            products := setByKey s.products it.productId
              (fun p' => { p' with
                quantity := (saleLogEntry it.productId it.quantity sid
                  .RETURN p.quantity).newStock })
            logs := s.logs ++ [saleLogEntry it.productId it.quantity sid
              .RETURN p.quantity] } : State) =
            totalQty s - p.quantity + (p.quantity + it.quantity) := h6
        rw [h6b]
        simp
        ring
      · rw [hkeyeq]
        have h8 : (setByKey s.products it.productId
            (fun p' => { p' with
              quantity := (saleLogEntry it.productId it.quantity sid
                .RETURN p.quantity).newStock })).map Prod.fst =
            s.products.map Prod.fst := keys_setByKey _ _ _
        exact h8
      · intro k hk
        rw [List.map_cons] at hk
        have hk1 : ¬ k = it.productId :=
          fun hc2 => hk (hc2 ▸ List.mem_cons_self _ _)
        have hk2 : k ∉ rest.map (fun x => x.productId) :=
          fun hc2 => hk (List.mem_cons_of_mem _ hc2)
        rw [hun k hk2]
        exact hlook1 k hk1

/-- Executed atomically, the compiled-JavaScript `stockIn` (pre-transaction
read) and the TypeScript `stockIn` (in-transaction read) coincide. -/
theorem stockIn_eq_TS (s : State) (pid : Nat) (q : Int) (cp : Option Rat) :
    stockIn s pid q cp = stockInTS s pid q cp := by
  unfold stockIn stockInTS
  by_cases hq : q ≤ 0
  · rw [if_pos hq, if_pos hq]
  · rw [if_neg hq, if_neg hq]
    cases hl : lookupActive s pid with
    | none => simp only [hl]
    | some p => simp only [hl]

/-- Executed atomically, the compiled-JavaScript `stockOut` (outside read
and double sufficiency check) and the TypeScript `stockOut` (single
in-transaction read and check) coincide. -/
theorem stockOut_eq_TS (s : State) (pid : Nat) (q : Int) :
    stockOut s pid q = stockOutTS s pid q := by
  unfold stockOut stockOutTS
  by_cases hq : q ≤ 0
  · rw [if_pos hq, if_pos hq]
  · rw [if_neg hq, if_neg hq]
    cases hl : lookupActive s pid with
    | none => simp only [hl]
    | some p =>
      simp only [hl]
      by_cases hs : p.quantity < q
      · rw [if_pos hs, if_pos hs]
      · rw [if_neg hs, if_neg hs]

/-- Executed atomically, the compiled-JavaScript `createSaleInventoryLog`
(outside read, stock computed before the transaction) and the TypeScript
one (everything inside the transaction) coincide. -/
theorem createSaleInventoryLog_eq_TS (s : State) (pid : Nat) (q : Int)
    (sid : Nat) (dir : SaleDirection) :
    createSaleInventoryLog s pid q sid dir =
      createSaleInventoryLogTS s pid q sid dir := by
  unfold createSaleInventoryLog createSaleInventoryLogTS
  cases hp : findByKey s.products pid with
  | none => simp only [hp]
  | some p =>
    simp only [hp]
    by_cases hg : dir = .SALE ∧ p.quantity < q
    · rw [if_pos hg, if_pos hg]
    · rw [if_neg hg, if_neg hg]

/-- A sale-movement entry satisfies the signed arithmetic. -/
theorem saleLogEntry_arith (pid : Nat) (q : Int) (sid : Nat)
    (dir : SaleDirection) (prev : Int) :
    logArith (saleLogEntry pid q sid dir prev) := by
  cases dir with
  | SALE =>
    constructor
    · intro h
      rcases h with h | h <;> cases h
    · intro _
      rfl
  | RETURN =>
    constructor
    · intro _
      rfl
    · intro h
      rcases h with h | h <;> cases h

/-- Post-state of a successful `stockIn`: the entry is appended, satisfies
the signed arithmetic, its quantity is positive, and its `newStock` is the
quantity stored for the product immediately afterwards. -/
theorem stockIn_post {s : State} {pid : Nat} {q : Int} {cp : Option Rat}
    {s1 : State} {log : InventoryLog}
    (h : stockIn s pid q cp = .ok (s1, log)) :
    s1.logs = s.logs ++ [log] ∧ productQty s1 pid = some log.newStock ∧
    logArith log ∧ 0 < log.quantity := by
  obtain ⟨hq, p, hl, hlog, hs1⟩ := stockIn_ok h
  obtain ⟨hfk, _⟩ := lookupActive_eq_some hl
  subst hs1
  subst hlog
  refine ⟨rfl, ?_, ?_, hq⟩
  · show (findByKey (setByKey s.products pid (fun p' =>
      { p' with
        quantity := p.quantity + q
        costPrice := applyCost cp p'.costPrice })) pid).map
      (fun p' => p'.quantity) = some (stockInEntry pid q p.quantity).newStock
    rw [findByKey_setByKey, if_pos rfl, hfk]
    rfl
  · constructor
    · intro _
      rfl
    · intro h2
      rcases h2 with h2 | h2 <;> cases h2

/-- Post-state of a successful `stockOut`: the entry is appended, satisfies
the signed arithmetic, its quantity is positive, and its `newStock` is the
quantity stored for the product immediately afterwards. -/
theorem stockOut_post {s : State} {pid : Nat} {q : Int}
    {s1 : State} {log : InventoryLog}
    (h : stockOut s pid q = .ok (s1, log)) :
    s1.logs = s.logs ++ [log] ∧ productQty s1 pid = some log.newStock ∧
    logArith log ∧ 0 < log.quantity := by
  obtain ⟨hq, p, hl, hs, hlog, hs1⟩ := stockOut_ok h
  obtain ⟨hfk, _⟩ := lookupActive_eq_some hl
  subst hs1
  subst hlog
  refine ⟨rfl, ?_, ?_, hq⟩
  · show (findByKey (setByKey s.products pid
      (fun p' => { p' with quantity := p.quantity - q })) pid).map
      (fun p' => p'.quantity) = some (stockOutEntry pid q p.quantity).newStock
    rw [findByKey_setByKey, if_pos rfl, hfk]
    rfl
  · constructor
    · intro h2
      rcases h2 with h2 | h2 <;> cases h2
    · intro _
      rfl

/-- Post-state of a successful `adjustStock`: the entry is appended, its
quantity is the absolute difference, it satisfies the signed arithmetic,
and its `newStock` is the quantity stored for the product immediately
afterwards. -/
theorem adjustStock_post {s : State} {pid : Nat} {t : Int}
    {s1 : State} {log : InventoryLog}
    (h : adjustStock s pid t = .ok (s1, log)) :
    s1.logs = s.logs ++ [log] ∧ productQty s1 pid = some log.newStock ∧
    logArith log ∧
    (∀ p, lookupActive s pid = some p →
      log.quantity = |t - p.quantity| ∧ 0 ≤ log.quantity) := by
  obtain ⟨ht, p, hl, hlog, hs1⟩ := adjustStock_ok h
  obtain ⟨hfk, _⟩ := lookupActive_eq_some hl
  subst hs1
  subst hlog
  refine ⟨rfl, ?_, ?_, ?_⟩
  · show (findByKey (setByKey s.products pid
      (fun p' => { p' with quantity := t })) pid).map
      (fun p' => p'.quantity) = some (adjustEntry pid t p.quantity).newStock
    rw [findByKey_setByKey, if_pos rfl, hfk]
    rfl
  · unfold adjustEntry logArith
    by_cases hgt : t > p.quantity
    · rw [if_pos hgt]
      constructor
      · intro _
        show t = p.quantity + |t - p.quantity|
        rw [abs_of_nonneg (by omega : (0 : Int) ≤ t - p.quantity)]
        omega
      · intro h2
        rcases h2 with h2 | h2 <;> cases h2
    · rw [if_neg hgt]
      constructor
      · intro h2
        rcases h2 with h2 | h2 <;> cases h2
      · intro _
        show t = p.quantity - |t - p.quantity|
        rw [abs_of_nonpos (by omega : t - p.quantity ≤ (0 : Int))]
        omega
  · intro p0 hp0
    rw [hl] at hp0
    cases hp0
    exact ⟨rfl, abs_nonneg _⟩

/-- Post-state of a successful sale-driven movement: the entry is appended,
carries the requested quantity, satisfies the signed arithmetic, and its
`newStock` is the quantity stored for the product immediately
afterwards. -/
theorem createSaleInventoryLog_post {s : State} {pid : Nat} {q : Int}
    {sid : Nat} {dir : SaleDirection} {s1 : State} {log : InventoryLog}
    (h : createSaleInventoryLog s pid q sid dir = .ok (s1, log)) :
    s1.logs = s.logs ++ [log] ∧ productQty s1 pid = some log.newStock ∧
    logArith log ∧ log.quantity = q ∧ log.saleId = some sid := by
  obtain ⟨p, hp, hg, hlog, hs1⟩ := createSaleInventoryLog_ok h
  subst hs1
  refine ⟨rfl, ?_, ?_, ?_, ?_⟩
  · show (findByKey (setByKey s.products pid
      (fun p' => { p' with quantity := log.newStock })) pid).map
      (fun p' => p'.quantity) = some log.newStock
    rw [findByKey_setByKey, if_pos rfl, hp]
    rfl
  · subst hlog
    exact saleLogEntry_arith pid q sid dir p.quantity
  · subst hlog
    rfl
  · subst hlog
    rfl

/-- Entries present after the ledger phase are old entries or satisfy the
signed arithmetic and, when the driving item quantities are positive, have
positive quantity. -/
theorem runLedger_logs : ∀ (items : List SaleItemInput) (s : State) (sid : Nat),
    ∀ e ∈ (runLedger s items sid).1.logs,
      e ∈ s.logs ∨ (logArith e ∧ ∃ it ∈ items, e.quantity = it.quantity) := by
  intro items
  induction items with
  | nil =>
    intro s sid e he
    exact Or.inl he
  | cons it rest ih =>
    intro s sid e he
    cases hc : createSaleInventoryLog s it.productId it.quantity sid .SALE with
    | error e0 =>
      rw [runLedger_cons_err hc] at he
      exact Or.inl he
    | ok r =>
      rcases r with ⟨s1, log⟩
      rw [runLedger_cons_ok hc] at he
      obtain ⟨hlogs, _, harith, hq, _⟩ := createSaleInventoryLog_post hc
      rcases ih s1 sid e he with h1 | ⟨h1, it', hm', hq'⟩
      · rw [hlogs] at h1
        rcases List.mem_append.mp h1 with h2 | h2
        · exact Or.inl h2
        · have h3 : e = log := by simpa using h2
          subst h3
          exact Or.inr ⟨harith, it, List.mem_cons_self _ _, hq⟩
      · exact Or.inr ⟨h1, it', List.mem_cons_of_mem _ hm', hq'⟩

/-- Entries present after the restock phase are old entries or satisfy the
signed arithmetic and carry some restocked item's quantity. -/
theorem runReturns_logs : ∀ (items : List SaleItem) (s : State) (sid : Nat),
    ∀ e ∈ (runReturns s items sid).1.logs,
      e ∈ s.logs ∨ (logArith e ∧ ∃ it ∈ items, e.quantity = it.quantity) := by
  intro items
  induction items with
  | nil =>
    intro s sid e he
    exact Or.inl he
  | cons it rest ih =>
    intro s sid e he
    cases hc : createSaleInventoryLog s it.productId it.quantity sid .RETURN with
    | error e0 =>
      rw [runReturns_cons_err hc] at he
      exact Or.inl he
    | ok r =>
      rcases r with ⟨s1, log⟩
      rw [runReturns_cons_ok hc] at he
      obtain ⟨hlogs, _, harith, hq, _⟩ := createSaleInventoryLog_post hc
      rcases ih s1 sid e he with h1 | ⟨h1, it', hm', hq'⟩
      · rw [hlogs] at h1
        rcases List.mem_append.mp h1 with h2 | h2
        · exact Or.inl h2
        · have h3 : e = log := by simpa using h2
          subst h3
          exact Or.inr ⟨harith, it, List.mem_cons_self _ _, hq⟩
      · exact Or.inr ⟨h1, it', List.mem_cons_of_mem _ hm', hq'⟩

/-- Entries present after a `createSale` call are old entries or satisfy
the signed arithmetic with a positive quantity (line items are validated
positive before any write). -/
theorem createSale_logs (s : State) (cust : Option Nat)
    (items : List SaleItemInput) (pm : Option PaymentMethod)
    (tax disc : Rat) (staff sid snum : Nat) :
    ∀ e ∈ (createSale s cust items pm tax disc staff sid snum).1.logs,
      e ∈ s.logs ∨ (logArith e ∧ 0 < e.quantity) := by
  unfold createSale
  by_cases h1 : items.isEmpty = true
  · rw [if_pos h1]; exact fun e he => Or.inl he
  · rw [if_neg h1]
    by_cases h2 : (items.any fun it => decide (it.quantity ≤ 0)) = true
    · rw [if_pos h2]; exact fun e he => Or.inl he
    · rw [if_neg h2]
      cases pm with
      | none => exact fun e he => Or.inl he
      | some pmv =>
        simp only []
        by_cases h4 : (cust.all fun c => s.customers.contains c) = true
        · rw [if_pos h4]
          cases hpr : priceItems s items with
          | error e0 =>
            simp only [hpr]
            exact fun e he => Or.inl he
          | ok r =>
            rcases r with ⟨saleItems, totalAmount⟩
            simp only [hpr]
            by_cases h6 : (items.map fun it => it.productId).Nodup
            · rw [if_pos h6]
              have hpos : ∀ it ∈ items, 0 < it.quantity := by
                intro it hm
                by_contra hc2
                apply h2
                rw [List.any_eq_true]
                exact ⟨it, hm, by simpa using (by omega : it.quantity ≤ 0)⟩
              cases hrl : runLedger s items sid with
              | mk s1 oe =>
                have hrun := runLedger_logs items s sid
                rw [hrl] at hrun
                cases oe with
                | some e0 =>
                  simp only [hrl]
                  intro e he
                  rcases hrun e he with h7 | ⟨h7, it, hm, hq⟩
                  · exact Or.inl h7
                  · exact Or.inr ⟨h7, hq ▸ hpos it hm⟩
                | none =>
                  simp only [hrl]
                  intro e he
                  rcases hrun e he with h7 | ⟨h7, it, hm, hq⟩
                  · exact Or.inl h7
                  · exact Or.inr ⟨h7, hq ▸ hpos it hm⟩
            · rw [if_neg h6]; exact fun e he => Or.inl he
        · rw [if_neg h4]; exact fun e he => Or.inl he

/-- Entries present after an `updateSaleStatus` call are old entries or
satisfy the signed arithmetic and carry some stored line-item's
quantity. -/
theorem updateSaleStatus_logs (s : State) (sid : Nat) (ns : SaleStatus) :
    ∀ e ∈ (updateSaleStatus s sid ns).1.logs,
      e ∈ s.logs ∨ (logArith e ∧ ∃ sale, findByKey s.sales sid = some sale ∧
        ∃ it ∈ sale.items, e.quantity = it.quantity) := by
  cases hsale : findByKey s.sales sid with
  | none =>
    rw [updateSaleStatus_notFound hsale]
    exact fun e he => Or.inl he
  | some sale =>
    cases hv : isValidStatusTransition sale.status ns with
    | false =>
      rw [updateSaleStatus_invalid hsale hv]
      exact fun e he => Or.inl he
    | true =>
      by_cases hns : ns = .REFUNDED ∨ ns = .CANCELLED
      · have hrun := runReturns_logs sale.items ({ s with
          sales := setByKey s.sales sid (fun _ => { sale with status := ns }) } : State) sid
        cases hrr : runReturns ({ s with
            sales := setByKey s.sales sid (fun _ => { sale with status := ns }) } : State)
            sale.items sid with
        | mk s2 oe =>
          rw [hrr] at hrun
          cases oe with
          | some e0 =>
            rw [updateSaleStatus_return_err hsale hv hns hrr]
            intro e he
            rcases hrun e he with h7 | ⟨h7, it, hm, hq⟩
            · exact Or.inl h7
            · exact Or.inr ⟨h7, sale, rfl, it, hm, hq⟩
          | none =>
            rw [updateSaleStatus_return_eq hsale hv hns hrr]
            intro e he
            rcases hrun e he with h7 | ⟨h7, it, hm, hq⟩
            · exact Or.inl h7
            · exact Or.inr ⟨h7, sale, rfl, it, hm, hq⟩
      · rw [updateSaleStatus_plain hsale hv hns]
        exact fun e he => Or.inl he

/-- The boolean transition table agrees with the explicit list of allowed
pairs. -/
theorem validTransition_iff (a b : SaleStatus) :
    isValidStatusTransition a b = true ↔
      ((a, b) = (.PENDING, .COMPLETED) ∨ (a, b) = (.PENDING, .CANCELLED) ∨
       (a, b) = (.COMPLETED, .REFUNDED)) := by
  cases a <;> cases b <;> decide

/-- C10: the compiled-JavaScript variants of `stockIn`, `stockOut` and
`createSaleInventoryLog`, which compute `previousStock`/`newStock` from a
product read performed before entering the write transaction, and the
TypeScript variants, which compute them from the read inside the
transaction, are extensionally equal when executed atomically: from the
same state with the same arguments they produce the same updated product
quantity, the same log entry fields and the same success-or-error
outcome. -/
theorem c10_js_ts_equivalence :
    (∀ (s : State) (pid : Nat) (q : Int) (cp : Option Rat),
      stockIn s pid q cp = stockInTS s pid q cp) ∧
    (∀ (s : State) (pid : Nat) (q : Int),
      stockOut s pid q = stockOutTS s pid q) ∧
    (∀ (s : State) (pid : Nat) (q : Int) (sid : Nat) (dir : SaleDirection),
      createSaleInventoryLog s pid q sid dir =
        createSaleInventoryLogTS s pid q sid dir) :=
  ⟨stockIn_eq_TS, stockOut_eq_TS, createSaleInventoryLog_eq_TS⟩

/-- C8: against a product with quantity 10, any interleaving of two
`stockOut` calls each requesting 7 that runs both calls to completion ends
with exactly one success, one insufficient-stock failure, and quantity
3 — no interleaving lets both succeed or leaves another quantity. -/
theorem c8_concurrent_stockout (sched : List Bool)
    (h1 : (run2 1 7 { st := initC8, c1 := .ready, c2 := .ready } sched).c1.done = true)
    (h2 : (run2 1 7 { st := initC8, c1 := .ready, c2 := .ready } sched).c2.done = true) :
    (((run2 1 7 { st := initC8, c1 := .ready, c2 := .ready } sched).c1 = .succeeded ∧
      (run2 1 7 { st := initC8, c1 := .ready, c2 := .ready } sched).c2 = .failedInsufficient) ∨
     ((run2 1 7 { st := initC8, c1 := .ready, c2 := .ready } sched).c1 = .failedInsufficient ∧
      (run2 1 7 { st := initC8, c1 := .ready, c2 := .ready } sched).c2 = .succeeded)) ∧
    productQty (run2 1 7 { st := initC8, c1 := .ready, c2 := .ready } sched).st 1 =
      some 3 := by
  refine invC8_final (run2_invC8 sched _ ?_) h1 h2
  left
  exact ⟨rfl, Or.inl rfl, Or.inl rfl⟩

/-- Witness for C8 at the schedule that runs the first call to completion
and then the second. -/
theorem c8_concurrent_stockout_witness :
    (run2 1 7 { st := initC8, c1 := .ready, c2 := .ready }
      [true, true, false, false]).c1.done = true ∧
    ((((run2 1 7 { st := initC8, c1 := .ready, c2 := .ready }
        [true, true, false, false]).c1 = .succeeded ∧
       (run2 1 7 { st := initC8, c1 := .ready, c2 := .ready }
        [true, true, false, false]).c2 = .failedInsufficient) ∨
      ((run2 1 7 { st := initC8, c1 := .ready, c2 := .ready }
        [true, true, false, false]).c1 = .failedInsufficient ∧
       (run2 1 7 { st := initC8, c1 := .ready, c2 := .ready }
        [true, true, false, false]).c2 = .succeeded)) ∧
     productQty (run2 1 7 { st := initC8, c1 := .ready, c2 := .ready }
       [true, true, false, false]).st 1 = some 3) :=
  ⟨by decide, c8_concurrent_stockout [true, true, false, false]
    (by decide) (by decide)⟩

/-- C4: `updateSaleStatus` on an existing sale (whose line items reference
existing products, as the schema's foreign keys guarantee) succeeds
exactly when the pair (current status, new status) is (PENDING, COMPLETED),
(PENDING, CANCELLED) or (COMPLETED, REFUNDED); for every other pair it
fails with an invalid-transition error naming both states and leaves the
whole store, the sale's status included, unchanged. -/
theorem c4_transition_table (s : State) (sid : Nat) (ns : SaleStatus)
    (sale : Sale) (hsale : findByKey s.sales sid = some sale)
    (hfk : ∀ it ∈ sale.items, (findByKey s.products it.productId).isSome) :
    ((∃ ret, (updateSaleStatus s sid ns).2 = .ok ret) ↔
      ((sale.status, ns) = (.PENDING, .COMPLETED) ∨
       (sale.status, ns) = (.PENDING, .CANCELLED) ∨
       (sale.status, ns) = (.COMPLETED, .REFUNDED))) ∧
    (¬ ((sale.status, ns) = (.PENDING, .COMPLETED) ∨
        (sale.status, ns) = (.PENDING, .CANCELLED) ∨
        (sale.status, ns) = (.COMPLETED, .REFUNDED)) →
      updateSaleStatus s sid ns =
        (s, .error (.invalidTransition sale.status ns))) := by
  cases hv : isValidStatusTransition sale.status ns with
  | false =>
    constructor
    · constructor
      · intro ⟨ret, hret⟩
        rw [updateSaleStatus_invalid hsale hv] at hret
        simp at hret
      · intro hpairs
        rw [(validTransition_iff sale.status ns).mpr hpairs] at hv
        cases hv
    · intro _
      exact updateSaleStatus_invalid hsale hv
  | true =>
    have hpairs := (validTransition_iff sale.status ns).mp hv
    constructor
    · constructor
      · intro _
        exact hpairs
      · intro _
        by_cases hns : ns = .REFUNDED ∨ ns = .CANCELLED
        · have hfk2 : ∀ it ∈ sale.items,
              (findByKey ({ s with
                sales := setByKey s.sales sid (fun _ => { sale with status := ns }) } : State).products
                it.productId).isSome := hfk
          obtain ⟨hnone, _⟩ := runReturns_none sale.items _ sid hfk2
          cases hrr : runReturns ({ s with
              sales := setByKey s.sales sid (fun _ => { sale with status := ns }) } : State)
              sale.items sid with
          | mk s2 oe =>
            rw [hrr] at hnone
            cases oe with
            | some e => simp at hnone
            | none =>
              exact ⟨{ sale with status := ns },
                by rw [updateSaleStatus_return_eq hsale hv hns hrr]⟩
        · exact ⟨{ sale with status := ns },
            by rw [updateSaleStatus_plain hsale hv hns]⟩
    · intro hc
      exact absurd hpairs hc

/-- Witness for C4 on the demonstration store: refunding the completed
sale. -/
theorem c4_transition_table_witness :
    findByKey demoState.sales 1 = some demoSale ∧
    (((∃ ret, (updateSaleStatus demoState 1 .REFUNDED).2 = .ok ret) ↔
      ((demoSale.status, SaleStatus.REFUNDED) = (.PENDING, .COMPLETED) ∨
       (demoSale.status, SaleStatus.REFUNDED) = (.PENDING, .CANCELLED) ∨
       (demoSale.status, SaleStatus.REFUNDED) = (.COMPLETED, .REFUNDED))) ∧
     (¬ ((demoSale.status, SaleStatus.REFUNDED) = (.PENDING, .COMPLETED) ∨
        (demoSale.status, SaleStatus.REFUNDED) = (.PENDING, .CANCELLED) ∨
        (demoSale.status, SaleStatus.REFUNDED) = (.COMPLETED, .REFUNDED)) →
      updateSaleStatus demoState 1 .REFUNDED =
        (demoState, .error (.invalidTransition demoSale.status .REFUNDED)))) :=
  ⟨by decide, c4_transition_table demoState 1 .REFUNDED demoSale
    (by decide) (by decide)⟩

/-- C9: a successful `updateSaleStatus` changes only the sale's status:
the returned and stored sale keep the sale number, all amounts, the
payment method, the staff and customer references, and every line item
exactly as before, with only the status set to the new value. -/
theorem c9_status_update_frame (s : State) (sid : Nat) (ns : SaleStatus)
    (sale ret : Sale) (hsale : findByKey s.sales sid = some sale)
    (h : (updateSaleStatus s sid ns).2 = .ok ret) :
    findByKey (updateSaleStatus s sid ns).1.sales sid = some ret ∧
    ret.saleNumber = sale.saleNumber ∧ ret.totalAmount = sale.totalAmount ∧
    ret.taxAmount = sale.taxAmount ∧ ret.discount = sale.discount ∧
    ret.finalAmount = sale.finalAmount ∧
    ret.paymentMethod = sale.paymentMethod ∧ ret.staffId = sale.staffId ∧
    ret.customerId = sale.customerId ∧ ret.items = sale.items ∧
    ret.status = ns := by
  cases hv : isValidStatusTransition sale.status ns with
  | false =>
    rw [updateSaleStatus_invalid hsale hv] at h
    simp at h
  | true =>
    have hstored : findByKey (setByKey s.sales sid
        (fun _ => { sale with status := ns })) sid =
        some { sale with status := ns } := by
      rw [findByKey_setByKey, if_pos rfl, hsale]
      rfl
    by_cases hns : ns = .REFUNDED ∨ ns = .CANCELLED
    · cases hrr : runReturns ({ s with
          sales := setByKey s.sales sid (fun _ => { sale with status := ns }) } : State)
          sale.items sid with
      | mk s2 oe =>
        cases oe with
        | some e =>
          rw [updateSaleStatus_return_err hsale hv hns hrr] at h
          simp at h
        | none =>
          rw [updateSaleStatus_return_eq hsale hv hns hrr] at h ⊢
          simp only [Except.ok.injEq] at h
          subst h
          have hfr := runReturns_frame sale.items ({ s with
            sales := setByKey s.sales sid
              (fun _ => { sale with status := ns }) } : State) sid
          rw [hrr] at hfr
          have hfr1 : s2.sales = setByKey s.sales sid
              (fun _ => { sale with status := ns }) := hfr.1
          refine ⟨?_, rfl, rfl, rfl, rfl, rfl, rfl, rfl, rfl, rfl, rfl⟩
          show findByKey s2.sales sid = _
          rw [hfr1]
          exact hstored
    · rw [updateSaleStatus_plain hsale hv hns] at h ⊢
      simp only [Except.ok.injEq] at h
      subst h
      refine ⟨?_, rfl, rfl, rfl, rfl, rfl, rfl, rfl, rfl, rfl, rfl⟩
      show findByKey (setByKey s.sales sid
        (fun _ => { sale with status := ns })) sid = _
      exact hstored

/-- Witness for C9 on the demonstration store: refunding the completed
sale keeps every field but the status. -/
theorem c9_status_update_frame_witness :
    (updateSaleStatus demoState 1 .REFUNDED).2 =
      .ok { demoSale with status := .REFUNDED } ∧
    (findByKey (updateSaleStatus demoState 1 .REFUNDED).1.sales 1 =
      some { demoSale with status := .REFUNDED } ∧
    ({ demoSale with status := SaleStatus.REFUNDED } : Sale).saleNumber = demoSale.saleNumber ∧
    ({ demoSale with status := SaleStatus.REFUNDED } : Sale).totalAmount = demoSale.totalAmount ∧
    ({ demoSale with status := SaleStatus.REFUNDED } : Sale).taxAmount = demoSale.taxAmount ∧
    ({ demoSale with status := SaleStatus.REFUNDED } : Sale).discount = demoSale.discount ∧
    ({ demoSale with status := SaleStatus.REFUNDED } : Sale).finalAmount = demoSale.finalAmount ∧
    ({ demoSale with status := SaleStatus.REFUNDED } : Sale).paymentMethod = demoSale.paymentMethod ∧
    ({ demoSale with status := SaleStatus.REFUNDED } : Sale).staffId = demoSale.staffId ∧
    ({ demoSale with status := SaleStatus.REFUNDED } : Sale).customerId = demoSale.customerId ∧
    ({ demoSale with status := SaleStatus.REFUNDED } : Sale).items = demoSale.items ∧
    ({ demoSale with status := SaleStatus.REFUNDED } : Sale).status = SaleStatus.REFUNDED) :=
  ⟨by rfl, c9_status_update_frame demoState 1 .REFUNDED demoSale
    { demoSale with status := .REFUNDED } (by decide) (by rfl)⟩

/-- C2: atomicity of the core operations.  A failing `createSale` leaves
the state exactly as it was — the validation loop writes nothing, the
unique index on `sale_items(saleId, productId)` aborts the transaction
before any ledger call when a product repeats, and once the validation
loop has succeeded on pairwise-distinct products the per-item ledger
calls cannot fail — and a successful `createSale` commits the sale row
plus exactly one ledger entry per line item.  A failing
`updateSaleStatus` (with line items backed by existing products, as the
foreign keys guarantee) also leaves the state unchanged.  For the
single-transaction operations, a success commits the quantity update and
its log entry together; their failures leave the state untouched by
construction of the transaction model. -/
theorem c2_operation_atomicity :
    (∀ (s : State) (cust : Option Nat) (items : List SaleItemInput)
      (pm : Option PaymentMethod) (tax disc : Rat) (staff sid snum : Nat)
      (e : OpError),
      (createSale s cust items pm tax disc staff sid snum).2 = .error e →
      (createSale s cust items pm tax disc staff sid snum).1 = s) ∧
    (∀ (s : State) (cust : Option Nat) (items : List SaleItemInput)
      (pm : Option PaymentMethod) (tax disc : Rat) (staff sid snum : Nat)
      (sale : Sale),
      (createSale s cust items pm tax disc staff sid snum).2 = .ok sale →
      (createSale s cust items pm tax disc staff sid snum).1.sales =
        s.sales ++ [(sid, sale)] ∧
      (createSale s cust items pm tax disc staff sid snum).1.logs.length =
        s.logs.length + items.length) ∧
    (∀ (s : State) (sid : Nat) (ns : SaleStatus) (sale : Sale) (e : OpError),
      findByKey s.sales sid = some sale →
      (∀ it ∈ sale.items, (findByKey s.products it.productId).isSome) →
      (updateSaleStatus s sid ns).2 = .error e →
      (updateSaleStatus s sid ns).1 = s) ∧
    (∀ (s : State) (pid : Nat) (q : Int) (cp : Option Rat) (s1 : State)
      (log : InventoryLog), stockIn s pid q cp = .ok (s1, log) →
      s1.logs = s.logs ++ [log] ∧ productQty s1 pid = some log.newStock) ∧
    (∀ (s : State) (pid : Nat) (q : Int) (s1 : State) (log : InventoryLog),
      stockOut s pid q = .ok (s1, log) →
      s1.logs = s.logs ++ [log] ∧ productQty s1 pid = some log.newStock) ∧
    (∀ (s : State) (pid : Nat) (t : Int) (s1 : State) (log : InventoryLog),
      adjustStock s pid t = .ok (s1, log) →
      s1.logs = s.logs ++ [log] ∧ productQty s1 pid = some log.newStock) := by
  refine ⟨?_, ?_, ?_, ?_, ?_, ?_⟩
  · intro s cust items pm tax disc staff sid snum e h
    exact (createSale_master s cust items pm tax disc staff sid snum).1 e h
  · intro s cust items pm tax disc staff sid snum sale h
    obtain ⟨pmv, saleItems, totalAmount, _, _, _, hsales, hlogs⟩ :=
      (createSale_master s cust items pm tax disc staff sid snum).2 sale h
    exact ⟨hsales, hlogs⟩
  · intro s sid ns sale e hsale hfk h
    cases hv : isValidStatusTransition sale.status ns with
    | false => rw [updateSaleStatus_invalid hsale hv]
    | true =>
      by_cases hns : ns = .REFUNDED ∨ ns = .CANCELLED
      · have hfk2 : ∀ it ∈ sale.items,
            (findByKey ({ s with
              sales := setByKey s.sales sid (fun _ => { sale with status := ns }) } : State).products
              it.productId).isSome := hfk
        obtain ⟨hnone, _⟩ := runReturns_none sale.items _ sid hfk2
        cases hrr : runReturns ({ s with
            sales := setByKey s.sales sid (fun _ => { sale with status := ns }) } : State)
            sale.items sid with
        | mk s2 oe =>
          rw [hrr] at hnone
          cases oe with
          | some e0 => simp at hnone
          | none =>
            rw [updateSaleStatus_return_eq hsale hv hns hrr] at h
            simp at h
      · rw [updateSaleStatus_plain hsale hv hns] at h
        simp at h
  · intro s pid q cp s1 log h
    obtain ⟨h1, h2, _, _⟩ := stockIn_post h
    exact ⟨h1, h2⟩
  · intro s pid q s1 log h
    obtain ⟨h1, h2, _, _⟩ := stockOut_post h
    exact ⟨h1, h2⟩
  · intro s pid t s1 log h
    obtain ⟨h1, h2, _, _⟩ := adjustStock_post h
    exact ⟨h1, h2⟩

/-- Witness for C2: a `createSale` that fails on insufficient stock leaves
the demonstration store untouched. -/
theorem c2_operation_atomicity_witness :
    (createSale demoState none
      [{ productId := 1, quantity := 9, unitPrice := none }]
      (some .CASH) 0 0 1 2 8).2 = .error (.insufficientStock 1) ∧
    (createSale demoState none
      [{ productId := 1, quantity := 9, unitPrice := none }]
      (some .CASH) 0 0 1 2 8).1 = demoState :=
  ⟨by decide, c2_operation_atomicity.1 demoState none
    [{ productId := 1, quantity := 9, unitPrice := none }]
    (some .CASH) 0 0 1 2 8 (.insufficientStock 1) (by decide)⟩

/-- C1 counterexample: from a state in which every product quantity is
nonnegative (but a stored line item has quantity −5), refunding the sale
drives the product quantity to −5. -/
theorem c1_counterexample :
    nonneg stateC1 ∧
    productQty (applyOp stateC1 (.opUpdateSaleStatus 1 .REFUNDED)) 1 =
      some (-5) := by
  constructor
  · decide
  · rfl

/-- C1 (amended): for every finite sequence of core operations starting
from a state in which every product's quantity is ≥ 0 and every stored
sale line item's quantity is ≥ 0 (the data model declares line-item
quantities positive; the counterexample shows the claim fails without
this), every intermediate and final state also has every product's
quantity ≥ 0; no operation ever drives a quantity negative. -/
theorem c1_quantity_nonneg (s : State) (ops : List Op)
    (hn : nonneg s) (hi : itemsNonneg s) :
    ∀ t ∈ traceStates s ops, nonneg t := by
  induction ops generalizing s with
  | nil =>
    intro t ht
    unfold traceStates at ht
    rcases List.mem_cons.mp ht with rfl | hm
    · exact hn
    · simp at hm
  | cons op rest ih =>
    intro t ht
    unfold traceStates at ht
    rcases List.mem_cons.mp ht with rfl | hm
    · exact hn
    · obtain ⟨hn2, hi2⟩ := applyOp_nonneg s op hn hi
      exact ih (applyOp s op) hn2 hi2 t hm

/-- Witness for C1 on the demonstration store with one stockOut. -/
theorem c1_quantity_nonneg_witness :
    nonneg demoState ∧ itemsNonneg demoState ∧
    ∀ t ∈ traceStates demoState [.opStockOut 1 3], nonneg t :=
  ⟨by decide, by decide,
    c1_quantity_nonneg demoState [.opStockOut 1 3] (by decide) (by decide)⟩

/-- C3 counterexample: the spec says the persisted unit price equals the
supplied per-item override whenever one is supplied, but a supplied
override of 0 is falsy in JavaScript (`item.unitPrice ? ... :
product.price`), so the persisted unit price is the product's price 7,
not the supplied 0. -/
theorem c3_counterexample :
    firstUnitPrice (createSale stateC3 none
      [{ productId := 1, quantity := 1, unitPrice := some 0 }]
      (some .CASH) 0 0 1 1 1) = some 7 ∧
    ¬ ((7 : Rat) = 0) := by
  constructor
  · decide
  · norm_num

/-- C3 (amended): for every successful `createSale`, each persisted line
item's unit price is the supplied override when that override is nonzero
and otherwise the product's current price (`priceOf`), its total price is
unit price times quantity, the sale's total amount is the sum of the line
totals, and the final amount is total amount plus tax minus discount. -/
theorem c3_sale_pricing (s : State) (cust : Option Nat)
    (items : List SaleItemInput) (pm : Option PaymentMethod)
    (tax disc : Rat) (staff sid snum : Nat) (sale : Sale)
    (h : (createSale s cust items pm tax disc staff sid snum).2 = .ok sale) :
    sale.totalAmount = (sale.items.map (fun si => si.totalPrice)).sum ∧
    sale.taxAmount = tax ∧ sale.discount = disc ∧
    sale.finalAmount = sale.totalAmount + tax - disc ∧
    List.Forall₂ (fun (it : SaleItemInput) (si : SaleItem) =>
      ∃ p, lookupActive s it.productId = some p ∧
        si.productId = it.productId ∧ si.quantity = it.quantity ∧
        si.unitPrice = priceOf it.unitPrice p.price ∧
        si.totalPrice = si.unitPrice * (si.quantity : Rat))
      items sale.items := by
  obtain ⟨-, hok⟩ := createSale_master s cust items pm tax disc staff sid snum
  obtain ⟨pmv, saleItems, totalAmount, hpm, hpr, hsale, hsales, hlogs⟩ :=
    hok sale h
  obtain ⟨hlen, htot, hfa⟩ := priceItems_ok hpr
  subst hsale
  refine ⟨htot, rfl, rfl, rfl, ?_⟩
  refine List.Forall₂.imp ?_ hfa
  intro it si hx
  obtain ⟨p, h1, h2, h3, h4, h5, h6⟩ := hx
  exact ⟨p, h1, h3, h4, h5, h6⟩

theorem c3_sale_pricing_witness :
    saleC3w.totalAmount =
      (saleC3w.items.map (fun si => si.totalPrice)).sum ∧
    saleC3w.taxAmount = 0 ∧ saleC3w.discount = 0 ∧
    saleC3w.finalAmount = saleC3w.totalAmount + 0 - 0 ∧
    List.Forall₂ (fun (it : SaleItemInput) (si : SaleItem) =>
      ∃ p, lookupActive demoState it.productId = some p ∧
        si.productId = it.productId ∧ si.quantity = it.quantity ∧
        si.unitPrice = priceOf it.unitPrice p.price ∧
        si.totalPrice = si.unitPrice * (si.quantity : Rat))
      [{ productId := 1, quantity := 2, unitPrice := none }]
      saleC3w.items :=
  c3_sale_pricing demoState none
    [{ productId := 1, quantity := 2, unitPrice := none }]
    (some .CASH) 0 0 1 2 9 saleC3w (by rfl)

/-- C5: every inventory log entry written by a core operation satisfies
the signed arithmetic (`newStock = previousStock + quantity` for STOCK_IN
and RETURN, `newStock = previousStock - quantity` for STOCK_OUT and SALE),
and for the single-entry operations the entry's `newStock` equals the
product's stored quantity immediately afterwards; entries present after
the composite operations (`createSale`, `updateSaleStatus`) are either
pre-existing or satisfy the signed arithmetic, each written by a
`createSaleInventoryLog` call covered by the fourth conjunct. -/
theorem c5_log_arithmetic :
    (∀ (s : State) (pid : Nat) (q : Int) (cp : Option Rat)
       (s1 : State) (log : InventoryLog),
      stockIn s pid q cp = .ok (s1, log) →
      s1.logs = s.logs ++ [log] ∧ logArith log ∧
      productQty s1 pid = some log.newStock) ∧
    (∀ (s : State) (pid : Nat) (q : Int) (s1 : State) (log : InventoryLog),
      stockOut s pid q = .ok (s1, log) →
      s1.logs = s.logs ++ [log] ∧ logArith log ∧
      productQty s1 pid = some log.newStock) ∧
    (∀ (s : State) (pid : Nat) (t : Int) (s1 : State) (log : InventoryLog),
      adjustStock s pid t = .ok (s1, log) →
      s1.logs = s.logs ++ [log] ∧ logArith log ∧
      productQty s1 pid = some log.newStock) ∧
    (∀ (s : State) (pid : Nat) (q : Int) (sid : Nat) (dir : SaleDirection)
       (s1 : State) (log : InventoryLog),
      createSaleInventoryLog s pid q sid dir = .ok (s1, log) →
      s1.logs = s.logs ++ [log] ∧ logArith log ∧
      productQty s1 pid = some log.newStock) ∧
    (∀ (s : State) (cust : Option Nat) (items : List SaleItemInput)
       (pm : Option PaymentMethod) (tax disc : Rat) (staff sid snum : Nat),
      ∀ e ∈ (createSale s cust items pm tax disc staff sid snum).1.logs,
        e ∈ s.logs ∨ logArith e) ∧
    (∀ (s : State) (sid : Nat) (ns : SaleStatus),
      ∀ e ∈ (updateSaleStatus s sid ns).1.logs,
        e ∈ s.logs ∨ logArith e) := by
  refine ⟨?_, ?_, ?_, ?_, ?_, ?_⟩
  · intro s pid q cp s1 log h
    obtain ⟨h1, h2, h3, _⟩ := stockIn_post h
    exact ⟨h1, h3, h2⟩
  · intro s pid q s1 log h
    obtain ⟨h1, h2, h3, _⟩ := stockOut_post h
    exact ⟨h1, h3, h2⟩
  · intro s pid t s1 log h
    obtain ⟨h1, h2, h3, _⟩ := adjustStock_post h
    exact ⟨h1, h3, h2⟩
  · intro s pid q sid dir s1 log h
    obtain ⟨h1, h2, h3, _, _⟩ := createSaleInventoryLog_post h
    exact ⟨h1, h3, h2⟩
  · intro s cust items pm tax disc staff sid snum e he
    exact (createSale_logs s cust items pm tax disc staff sid snum e he).imp
      id And.left
  · intro s sid ns e he
    exact (updateSaleStatus_logs s sid ns e he).imp id And.left

theorem c5_log_arithmetic_witness :
    c5s1.logs = demoState.logs ++ [c5log] ∧ logArith c5log ∧
    productQty c5s1 1 = some c5log.newStock :=
  c5_log_arithmetic.1 demoState 1 5 none c5s1 c5log (by decide)

/-- C6: refunding a COMPLETED sale succeeds, writes exactly one RETURN log
entry per line item in order — each referencing the sale and carrying the
item's product and quantity — increases each item's product quantity by
that item's quantity, and raises the total stock by the sum of the line
quantities.  Hypotheses: the sale exists, its line items reference stored
products (schema foreign key), no product occurs twice among the items
(schema unique index on `sale_items(saleId, productId)`), and product keys
are unique (primary key). -/
theorem c6_refund_restocks (s : State) (sid : Nat) (sale : Sale)
    (hsale : findByKey s.sales sid = some sale)
    (hst : sale.status = .COMPLETED)
    (hfk : ∀ it ∈ sale.items, (findByKey s.products it.productId).isSome)
    (hnd : (sale.items.map (fun it => it.productId)).Nodup)
    (hkeys : (s.products.map Prod.fst).Nodup) :
    (updateSaleStatus s sid .REFUNDED).2 =
      .ok { sale with status := .REFUNDED } ∧
    (∃ L, (updateSaleStatus s sid .REFUNDED).1.logs = s.logs ++ L ∧
      List.Forall₂ (fun (it : SaleItem) (e : InventoryLog) =>
        e.type = .RETURN ∧ e.saleId = some sid ∧
        e.productId = it.productId ∧ e.quantity = it.quantity)
        sale.items L) ∧
    (∀ it ∈ sale.items, ∀ p, findByKey s.products it.productId = some p →
      findByKey (updateSaleStatus s sid .REFUNDED).1.products it.productId =
        some { p with quantity := p.quantity + it.quantity }) ∧
    totalQty (updateSaleStatus s sid .REFUNDED).1 =
      totalQty s + (sale.items.map (fun it => it.quantity)).sum := by
  have hv : isValidStatusTransition sale.status .REFUNDED = true := by
    rw [hst]
    rfl
  have hex1 : ∀ it ∈ sale.items,
      (findByKey ({ s with sales := setByKey s.sales sid (fun _ => { sale with status := SaleStatus.REFUNDED }) } : State).products it.productId).isSome :=
    hfk
  have hkeys1 : (({ s with sales := setByKey s.sales sid (fun _ => { sale with status := SaleStatus.REFUNDED }) } : State).products.map Prod.fst).Nodup :=
    hkeys
  obtain ⟨hnone, -⟩ := runReturns_none sale.items
    ({ s with sales := setByKey s.sales sid (fun _ => { sale with status := SaleStatus.REFUNDED }) } : State) sid hex1
  obtain ⟨⟨L, hL1, hL2⟩, hper, htot, -, -⟩ := runReturns_spec sale.items
    ({ s with sales := setByKey s.sales sid (fun _ => { sale with status := SaleStatus.REFUNDED }) } : State) sid hex1 hnd hkeys1
  cases hrr : runReturns
      ({ s with sales := setByKey s.sales sid (fun _ => { sale with status := SaleStatus.REFUNDED }) } : State)
      sale.items sid with
  | mk s2 oe =>
    rw [hrr] at hnone hL1 hper htot
    cases oe with
    | some e0 => simp at hnone
    | none =>
      have heq := updateSaleStatus_return_eq hsale hv (Or.inl rfl) hrr
      rw [heq]
      have hL1s : s2.logs = s.logs ++ L := hL1
      have htots : totalQty s2 =
          totalQty s + (sale.items.map (fun it => it.quantity)).sum := htot
      refine ⟨rfl, ⟨L, hL1s, hL2⟩, ?_, htots⟩
      intro it hm p hp
      have hper2 : findByKey s2.products it.productId =
          some { p with quantity := p.quantity + it.quantity } :=
        hper it hm p hp
      exact hper2

theorem c6_refund_restocks_witness :
    (updateSaleStatus demoState 1 .REFUNDED).2 =
      .ok { demoSale with status := .REFUNDED } ∧
    (∃ L, (updateSaleStatus demoState 1 .REFUNDED).1.logs =
        demoState.logs ++ L ∧
      List.Forall₂ (fun (it : SaleItem) (e : InventoryLog) =>
        e.type = .RETURN ∧ e.saleId = some 1 ∧
        e.productId = it.productId ∧ e.quantity = it.quantity)
        demoSale.items L) ∧
    (∀ it ∈ demoSale.items, ∀ p,
      findByKey demoState.products it.productId = some p →
      findByKey (updateSaleStatus demoState 1 .REFUNDED).1.products
          it.productId = some { p with quantity := p.quantity + it.quantity }) ∧
    totalQty (updateSaleStatus demoState 1 .REFUNDED).1 =
      totalQty demoState + (demoSale.items.map (fun it => it.quantity)).sum :=
  c6_refund_restocks demoState 1 demoSale (by decide) rfl (by decide)
    (by decide) (by decide)

/-- C7 counterexample: `adjustStock` writes its log entry unconditionally,
so adjusting a product to its current quantity (here 4 to 4) writes an
entry whose quantity |4 − 4| = 0 is not strictly positive. -/
theorem c7_counterexample :
    adjustLogQty (adjustStock demoState 1 4) = some 0 ∧
    ¬ ((0 : Int) > 0) := by
  decide

/-- C7 (amended): `stockIn` and `stockOut` write entries with strictly
positive quantity, `createSaleInventoryLog` writes the requested quantity
(strictly positive along every `createSale` path, where line quantities
are validated positive before any write), and `adjustStock` writes the
absolute difference |target − current|, which is nonnegative but zero when
the target equals the current stock. -/
theorem c7_log_quantities :
    (∀ (s : State) (pid : Nat) (q : Int) (cp : Option Rat)
       (s1 : State) (log : InventoryLog),
      stockIn s pid q cp = .ok (s1, log) → 0 < log.quantity) ∧
    (∀ (s : State) (pid : Nat) (q : Int) (s1 : State) (log : InventoryLog),
      stockOut s pid q = .ok (s1, log) → 0 < log.quantity) ∧
    (∀ (s : State) (pid : Nat) (q : Int) (sid : Nat) (dir : SaleDirection)
       (s1 : State) (log : InventoryLog),
      createSaleInventoryLog s pid q sid dir = .ok (s1, log) →
      log.quantity = q) ∧
    (∀ (s : State) (cust : Option Nat) (items : List SaleItemInput)
       (pm : Option PaymentMethod) (tax disc : Rat) (staff sid snum : Nat),
      ∀ e ∈ (createSale s cust items pm tax disc staff sid snum).1.logs,
        e ∈ s.logs ∨ 0 < e.quantity) ∧
    (∀ (s : State) (pid : Nat) (t : Int) (s1 : State) (log : InventoryLog),
      adjustStock s pid t = .ok (s1, log) →
      ∀ p, lookupActive s pid = some p →
        log.quantity = |t - p.quantity| ∧ 0 ≤ log.quantity) := by
  refine ⟨?_, ?_, ?_, ?_, ?_⟩
  · intro s pid q cp s1 log h
    exact (stockIn_post h).2.2.2
  · intro s pid q s1 log h
    exact (stockOut_post h).2.2.2
  · intro s pid q sid dir s1 log h
    exact (createSaleInventoryLog_post h).2.2.2.1
  · intro s cust items pm tax disc staff sid snum e he
    exact (createSale_logs s cust items pm tax disc staff sid snum e he).imp
      id And.right
  · intro s pid t s1 log h p hp
    exact (adjustStock_post h).2.2.2 p hp

theorem c7_log_quantities_witness : (0 : Int) < c7log.quantity :=
  c7_log_quantities.2.1 demoState 1 3 c7s1 c7log (by decide)
